import Mathlib

/-!
Verification of the CHAMELEON BBIS board handler (`bb_chameleon.c`, PCI
variant, little-endian build) against its natural-language specification.

The driver's data model and operations are shallowly embedded:

* C arrays of size `CHAMELEON_BBIS_MAX_DEVS` are modelled as total functions
  `Nat → _`; indices `≥ 256` stand for whatever memory happens to follow the
  array (the source never writes there, but an unchecked read can reach it).
* The untyped `void *dev[]` slot array, which the source casts to either
  `CHAMELEONV2_UNIT*` or `BBIS_CHAM_GRP*` depending on the `devId[]` sentinel,
  is modelled as `Option (ChamUnit ⊕ BbisChamGrp)`; where the source would
  dereference an inconsistent or NULL pointer, the model reads a junk default.
* Machine integers are `Nat` with explicit `% 2^32` where 32-bit overflow can
  occur; `u_int8` casts are explicit `% 256`.
* External collaborators (chameleon table library, OSS layer, descriptor
  parser) are parameters: the table is a `List ChamUnit` iterated in order
  (`UnitIdent`), `InstanceFind` is an abstract function
  `ChamFind → Option ChamUnit`, PCI config space is an abstract
  `Nat → Nat → Nat → Nat → Except Nat Nat`.
-/

namespace BbCham

/-! ## Constants from bb_chameleon.c (lines 166-180) -/

def CHAMELEON_BBIS_MAX_DEVS : Nat := 256
def CHAMELEON_BBIS_MAX_GRPS : Nat := 15
def CHAMELEON_NO_DEV : Nat := 0xfffd
def CHAMELEON_BBIS_GROUP : Nat := 0xfffe
def MAX_EXCL_MODCODES : Nat := 0xff
def PCI_SECONDARY_BUS_NUMBER : Nat := 0x19
def BBCHAM_GIRQ_IRQ_EN : Nat := 0x08
def BBCHAM_GIRQ_IN_USE : Nat := 0x14
def BBCHAM_GIRQ_IN_USE_BIT : Nat := 0x1

/-! ## External interface constants

The numeric values of the MDIS/BBIS/OSS codes live in headers outside this
repository (`mdis_err.h`, `mdis_api.h`, `bb_defs.h`, `oss.h`).  They are
modelled here as distinct numerals; only their identity (and being nonzero
for error codes) is ever used. -/

def ERR_SUCCESS : Nat := 0
def ERR_BBIS : Nat := 0x500
def ERR_BBIS_ILL_FUNC : Nat := 0x501
def ERR_BBIS_ILL_SLOT : Nat := 0x502
def ERR_BBIS_ILL_PARAM : Nat := 0x503
def ERR_BBIS_ILL_ADDRMODE : Nat := 0x504
def ERR_BBIS_ILL_DATAMODE : Nat := 0x505
def ERR_BBIS_ILL_IRQPARAM : Nat := 0x506
def ERR_BBIS_NO_CHECKLOC : Nat := 0x507
def ERR_BBIS_UNK_CODE : Nat := 0x508

def MDIS_MA_CHAMELEON : Nat := 0x800
def MDIS_MA_BB_INFO_PTR : Nat := 0x801
def MDIS_MD_CHAM_0 : Nat := 0
def MDIS_MD_CHAM_MAX : Nat := 15

def BBIS_BRDINFO_BUSTYPE : Nat := 1
def BBIS_BRDINFO_DEVBUSTYPE : Nat := 2
def BBIS_BRDINFO_FUNCTION : Nat := 3
def BBIS_BRDINFO_NUM_SLOTS : Nat := 4
def BBIS_BRDINFO_INTERRUPTS : Nat := 5
def BBIS_BRDINFO_ADDRSPACE : Nat := 6
def BBIS_BRDINFO_BRDNAME : Nat := 7
def BBIS_IRQ_DEVIRQ : Nat := 1
def OSS_BUSTYPE_PCI : Nat := 2
def OSS_BUSTYPE_CHAM : Nat := 3
def OSS_ADDRSPACE_MEM : Nat := 0

/-- sizeof(CHAMELEONV2_UNIT): a nonzero platform constant (external header);
    returned as `*mSize` in the `MDIS_MA_BB_INFO_PTR` mode of GetMAddr. -/
def sizeofChamUnit : Nat := 0x28

/-! ## Data model -/

/-- One chameleon table unit record (external `CHAMELEONV2_UNIT`), restricted
to the fields this driver reads.  The source field `instance` is spelled
`instanceNr` (`instance` is a Lean keyword). -/
structure ChamUnit where
  devId : Nat        -- u_int16 device id
  group : Nat        -- group id from table, 0 = not grouped
  instanceNr : Int   -- instance number
  interrupt : Nat    -- interrupt line (6-bit field; 0x3F = no interrupt)
  addr : Nat         -- physical base address
  size : Nat         -- size of address space (0 in legacy V0/V1 tables)
  revision : Nat
  deriving Repr, DecidableEq

/-- Junk value read where the source would dereference an invalid pointer. -/
def junkUnit : ChamUnit := ⟨0, 0, 0, 0, 0, 0, 0⟩

/-- `BBIS_CHAM_GRP` (bb_chameleon.c lines 202-209): one group record.
The fixed `devId[MAX_DEVS]`/`idx[MAX_DEVS]`/`dev[MAX_DEVS]` arrays are
total functions; `devCount` is the number of members in the group. -/
@[ext] structure BbisChamGrp where
  grpId : Nat
  devId : Nat → Nat
  idx : Nat → Nat
  dev : Nat → Option ChamUnit
  devCount : Nat

/-- Junk group record (cast of an invalid pointer). -/
def junkGrp : BbisChamGrp :=
  ⟨0, fun _ => CHAMELEON_NO_DEV, fun _ => 0, fun _ => none, 0⟩

/-- Contents of one `h->dev[i]` pointer slot: NULL, a single
`CHAMELEONV2_UNIT`, or a `BBIS_CHAM_GRP` (discriminated in the source by the
`h->devId[i]` sentinels `CHAMELEON_NO_DEV` / `CHAMELEON_BBIS_GROUP`). -/
abbrev DevSlot := Option (ChamUnit ⊕ BbisChamGrp)

/-- Read `h->dev[i]` as a `BBIS_CHAM_GRP*` (the source's unchecked cast). -/
def slotGrp (d : DevSlot) : BbisChamGrp :=
  match d with
  | some (Sum.inr g) => g
  | _ => junkGrp

/-- Read `h->dev[i]` as a `CHAMELEONV2_UNIT*` (the source's unchecked cast). -/
def slotUnit (d : DevSlot) : ChamUnit :=
  match d with
  | some (Sum.inl u) => u
  | _ => junkUnit

/-- `BBIS_HANDLE` (bb_chameleon.c lines 211-253), restricted to the fields
the verified operations read.  `girqMapped` models `girqVirtAddr != NULL`. -/
@[ext] structure BbisHandle where
  pciDomainNbr : Nat
  pciBusNbr : Nat
  devId : Nat → Nat            -- u_int16 devId[CHAMELEON_BBIS_MAX_DEVS]
  inst : Nat → Int             -- int16  inst[...]  (V2 instance, else -1)
  idx : Nat → Nat              -- u_int32 idx[...]
  dev : Nat → DevSlot          -- void*  dev[...]
  devCount : Nat
  devCountInit : Nat
  autoEnum : Bool
  exclModCodes : List Nat      -- u_int8 entries, used prefix of the array
  girqMapped : Bool
  girqApiVersion : Nat

/-! ## CHAMELEON_GetMAddr (bb_chameleon.c lines 2106-2178) -/

/-- The `*mAddr` output: either a hardware base address (`unit->addr`) or, in
`MDIS_MA_BB_INFO_PTR` mode, a pointer to the whole unit record. -/
inductive MAddr where
  | hw (a : Nat)
  | unitInfo (u : ChamUnit)
  deriving Repr, DecidableEq

/-- `CHAMELEON_GetMAddr`: bounds check, occupancy check, group/single
address selection, and the final `if (*mSize == 0) *mSize = 0x100;`
fallback (lines 2171-2172). -/
def CHAMELEON_GetMAddr (h : BbisHandle) (mSlot addrMode dataMode : Nat) :
    Except Nat (MAddr × Nat) :=
  -- prevent array index violation
  if mSlot > CHAMELEON_BBIS_MAX_DEVS - 1 then .error ERR_BBIS_ILL_SLOT
  else if h.devId mSlot = CHAMELEON_NO_DEV then .error ERR_BBIS_ILL_SLOT
  else
    let res : Except Nat (MAddr × Nat) :=
      if h.devId mSlot = CHAMELEON_BBIS_GROUP then
        if addrMode ≠ MDIS_MA_CHAMELEON ∧ addrMode ≠ MDIS_MA_BB_INFO_PTR then
          .error ERR_BBIS_ILL_ADDRMODE
        else if dataMode > MDIS_MD_CHAM_MAX then
          .error ERR_BBIS_ILL_DATAMODE
        else if addrMode = MDIS_MA_CHAMELEON then
          let u := ((slotGrp (h.dev mSlot)).dev dataMode).getD junkUnit
          .ok (.hw u.addr, u.size)
        else
          .ok (.unitInfo (((slotGrp (h.dev mSlot)).dev dataMode).getD junkUnit),
               sizeofChamUnit)
      else
        if (addrMode = MDIS_MA_CHAMELEON ∨ addrMode = MDIS_MA_BB_INFO_PTR) ∧
            dataMode ≠ MDIS_MD_CHAM_0 then
          .error ERR_BBIS_ILL_ADDRMODE
        else if addrMode = MDIS_MA_BB_INFO_PTR then
          .ok (.unitInfo (slotUnit (h.dev mSlot)), sizeofChamUnit)
        else
          .ok (.hw (slotUnit (h.dev mSlot)).addr, (slotUnit (h.dev mSlot)).size)
    match res with
    | .ok (a, sz) => .ok (a, if sz = 0 then 0x100 else sz)  -- Cham V0/1 default
    | .error e => .error e

/-! ## CHAMELEON_BrdInfo (bb_chameleon.c lines 1398-1507)

The vararg out-parameters are modelled as a discriminated answer type.
The function takes no board handle in the source either. -/

inductive BrdInfoAns where
  | function (used : Bool)
  | numSlots (n : Nat)
  | busType (b : Nat)
  | devBusType (b : Nat)
  | interrupts (i : Nat)
  | addrSpace (a : Nat)
  | brdName (s : String)
  deriving Repr, DecidableEq

def CHAMELEON_BrdInfo (code : Nat) : Except Nat BrdInfoAns :=
  if code = BBIS_BRDINFO_FUNCTION then .ok (.function false)
  else if code = BBIS_BRDINFO_NUM_SLOTS then
    -- No board handle here, return maximum
    .ok (.numSlots CHAMELEON_BBIS_MAX_DEVS)
  else if code = BBIS_BRDINFO_BUSTYPE then .ok (.busType OSS_BUSTYPE_PCI)
  else if code = BBIS_BRDINFO_DEVBUSTYPE then .ok (.devBusType OSS_BUSTYPE_CHAM)
  else if code = BBIS_BRDINFO_INTERRUPTS then .ok (.interrupts BBIS_IRQ_DEVIRQ)
  else if code = BBIS_BRDINFO_ADDRSPACE then .ok (.addrSpace OSS_ADDRSPACE_MEM)
  else if code = BBIS_BRDINFO_BRDNAME then .ok (.brdName "Chameleon FPGA")
  else .error ERR_BBIS_UNK_CODE

/-! ## Theorems for C9 and C10 -/

/-- C9: For every occupied slot whose underlying module record reports a size
of zero, `CHAMELEON_GetMAddr` returns the fixed fallback size of 0x100 (256)
bytes instead of zero, and returns a nonzero reported size unchanged — both
for a single-device slot (conventional address mode) and for a selected
member of a group slot. -/
theorem getMAddr_size_fallback :
    (∀ (h : BbisHandle) (mSlot : Nat) (u : ChamUnit),
      mSlot < CHAMELEON_BBIS_MAX_DEVS →
      h.devId mSlot ≠ CHAMELEON_NO_DEV →
      h.devId mSlot ≠ CHAMELEON_BBIS_GROUP →
      h.dev mSlot = some (Sum.inl u) →
      CHAMELEON_GetMAddr h mSlot 0 0 =
        .ok (.hw u.addr, if u.size = 0 then 0x100 else u.size)) ∧
    (∀ (h : BbisHandle) (mSlot dataMode : Nat) (u : ChamUnit),
      mSlot < CHAMELEON_BBIS_MAX_DEVS →
      h.devId mSlot = CHAMELEON_BBIS_GROUP →
      dataMode ≤ MDIS_MD_CHAM_MAX →
      (slotGrp (h.dev mSlot)).dev dataMode = some u →
      CHAMELEON_GetMAddr h mSlot MDIS_MA_CHAMELEON dataMode =
        .ok (.hw u.addr, if u.size = 0 then 0x100 else u.size)) := by
  constructor
  · intro h mSlot u hlt hnodev hnogrp hdev
    unfold CHAMELEON_GetMAddr
    rw [if_neg (by omega), if_neg hnodev]
    simp only [if_neg hnogrp]
    have hmode : ¬((0 = MDIS_MA_CHAMELEON ∨ 0 = MDIS_MA_BB_INFO_PTR) ∧
        (0 : Nat) ≠ MDIS_MD_CHAM_0) := by
      intro ⟨_, hc⟩; exact hc rfl
    rw [if_neg hmode, if_neg (by decide : ¬(0 = MDIS_MA_BB_INFO_PTR))]
    simp [slotUnit, hdev]
  · intro h mSlot dataMode u hlt hgrp hdm hmem
    unfold CHAMELEON_GetMAddr
    rw [if_neg (by omega)]
    rw [if_neg (by rw [hgrp]; decide)]
    simp only [if_pos hgrp]
    rw [if_neg (by simp)]
    rw [if_neg (by omega)]
    simp [hmem]

/-- Witness for C9 at a concrete handle: a single-device slot with reported
size 0 yields size 0x100, a group member with size 0x30 keeps it. -/
theorem getMAddr_size_fallback_witness :
    let u0 : ChamUnit := ⟨0x22, 0, 0, 5, 0x9000, 0, 1⟩
    let h0 : BbisHandle :=
      ⟨0, 0, fun n => if n = 3 then 0x22 else CHAMELEON_NO_DEV,
       fun _ => -1, fun _ => 0,
       fun n => if n = 3 then some (Sum.inl u0) else none,
       1, 1, false, [], false, 0⟩
    CHAMELEON_GetMAddr h0 3 0 0 = .ok (.hw 0x9000, 0x100) := by
  intro u0 h0
  have := (getMAddr_size_fallback.1 h0 3 u0 (by decide) (by decide) (by decide)
    (by rfl))
  simpa using this

/-! ## GIRQ register block and CHAMELEON_IrqEnable
(bb_chameleon.c lines 1796-1957)

The 32-byte GIRQ block is modelled by the three registers this function
touches: the 64-bit interrupt-enable register as two 32-bit halves (offsets
`BBCHAM_GIRQ_IRQ_EN` and `+4`), and the in-use register.  Values are `Nat`
kept `< 2^32`; writes truncate with `% 2^32` (u32 register width).
`OSS_SpinLockAcquire`/`Release` (external OSS layer) are modelled as
succeeding; the little-endian build is modelled (no `OSS_SWAP32`). -/

structure GirqRegs where
  enLower : Nat   -- BBCHAM_GIRQ_IRQ_EN
  enUpper : Nat   -- BBCHAM_GIRQ_IRQ_EN + 4
  inUse : Nat     -- BBCHAM_GIRQ_IN_USE
  deriving Repr, DecidableEq

/-- `_MREAD_D32(·, girqVirtAddr, BBCHAM_GIRQ_IRQ_EN + offs)` where `offs`
is 0 (lower half) or 4 (upper half). -/
def girqEnRead (r : GirqRegs) (offs : Nat) : Nat :=
  if offs = 0 then r.enLower else r.enUpper

/-- `_MWRITE_D32(girqVirtAddr, BBCHAM_GIRQ_IRQ_EN + offs, v)`. -/
def girqEnWrite (r : GirqRegs) (offs v : Nat) : GirqRegs :=
  if offs = 0 then { r with enLower := v } else { r with enUpper := v }

/-- The GIRQ in-use busy-wait (bb_chameleon.c lines 1847-1876): read the
in-use register, and while the in-use bit reads 1, delay 10 us and re-read.
The C loop has no retry bound, so the embedding takes fuel: `some k` means
the loop left after the `k`-th re-read saw the bit clear (`k` = the source's
`girqCount`), `none` means the loop was still spinning after `fuel` retries.
`reads j` is the value returned by the j-th read of the in-use register,
modelling any possible behaviour of the shared hardware register. -/
def girqInUseWait (reads : Nat → Nat) : Nat → Nat → Option Nat
  | 0, k =>
    if reads k &&& BBCHAM_GIRQ_IN_USE_BIT = 0 then some k else none
  | fuel + 1, k =>
    if reads k &&& BBCHAM_GIRQ_IN_USE_BIT = 0 then some k
    else girqInUseWait reads fuel (k + 1)

/-- The modified enable-register value of one verify-loop iteration
(bb_chameleon.c lines 1892-1899): set bit `slotShift` when `enable` is
nonzero, clear it otherwise, in u32 arithmetic. -/
def mkIrqen (enable slotShift irqen : Nat) : Nat :=
  if enable ≠ 0 then (irqen ||| (1 <<< slotShift)) % 2 ^ 32
  else irqen &&& ((2 ^ 32 - 1) ^^^ ((1 <<< slotShift) % 2 ^ 32))

/-- The write-verify loop (bb_chameleon.c lines 1878-1921) over the stored
register state: read the enable register, set or clear bit `slotShift`,
write the result back, wait 100 us, read back, and retry (at most 10
iterations total) while the read-back differs.  In this store model a read
returns the last written value, so the read-back comparison of an iteration
always succeeds.  Returns the final register state and whether verification
succeeded (`false` = the `i >= 10` soft-failure path, which only logs). -/
def irqEnableVerify (enable slotShift offs : Nat) :
    Nat → GirqRegs → GirqRegs × Bool
  | 0, r => (r, false)
  | fuel + 1, r =>
    let irqenNew := mkIrqen enable slotShift (girqEnRead r offs)
    let r' := girqEnWrite r offs irqenNew
    if girqEnRead r' offs = irqenNew then (r', true)
    else irqEnableVerify enable slotShift offs fuel r'

/-- Resolve the slot's interrupt-line value (bb_chameleon.c lines
1817-1826): for a group slot the base (first) member's `interrupt`, for an
occupied single slot the unit's `interrupt`, else `ERR_BBIS_ILL_IRQPARAM`.
Note: the source performs no bounds check on `slot` before indexing
`h->devId[slot]`; accordingly `slot ≥ 256` here reads the junk the total
function `h.devId` assigns past the array. -/
def slotIrq (h : BbisHandle) (slot : Nat) : Except Nat Nat :=
  if h.devId slot = CHAMELEON_BBIS_GROUP then
    .ok (((slotGrp (h.dev slot)).dev 0).getD junkUnit).interrupt
  else if h.devId slot ≠ CHAMELEON_NO_DEV then
    .ok (slotUnit (h.dev slot)).interrupt
  else
    .error ERR_BBIS_ILL_IRQPARAM

/-- Result of `CHAMELEON_IrqEnable`: the returned error code, the GIRQ
register state afterwards, whether the write-verify loop succeeded, and
whether any write to the enable register was performed. -/
structure IrqEnableRes where
  error : Nat
  regs : GirqRegs
  verifyOk : Bool
  wrote : Bool
  deriving Repr, DecidableEq

/-- `CHAMELEON_IrqEnable` (bb_chameleon.c lines 1796-1957): when the GIRQ
unit is mapped, resolve the slot's interrupt line, select the upper
register half for values > 31 (lines 1829-1834), take the spinlock, run the
in-use busy-wait when the probed API version is nonzero, perform the
verify-retry read-modify-write, release the in-use bit and the spinlock.
`none` models the busy-wait still spinning after `fuel` retries (the C loop
is unbounded). -/
def CHAMELEON_IrqEnable (h : BbisHandle) (regs : GirqRegs)
    (slot enable fuel : Nat) : Option IrqEnableRes :=
  if h.girqMapped then
    match slotIrq h slot with
    | .error e => some ⟨e, regs, false, false⟩
    | .ok sh0 =>
      -- upper 32 bit? next address - irq enable has 64 bit
      let offs : Nat := if sh0 > 31 then 4 else 0
      let slotShift : Nat := if sh0 > 31 then sh0 - 32 else sh0
      let wait : Option Nat :=
        if h.girqApiVersion ≠ 0 then girqInUseWait (fun _ => regs.inUse) fuel 0
        else some 0
      match wait with
      | none => none
      | some _ =>
        let vr := irqEnableVerify enable slotShift offs 10 regs
        let r2 :=
          if h.girqApiVersion ≠ 0 then
            { vr.1 with inUse := BBCHAM_GIRQ_IN_USE_BIT }  -- release INUSE
          else vr.1
        some ⟨ERR_SUCCESS, r2, vr.2, true⟩
  else
    some ⟨ERR_SUCCESS, regs, false, false⟩

/-- A write followed by a read of the same enable-register offset returns
the written value (store semantics of the mapped register block). -/
lemma girqEnRead_write (r : GirqRegs) (offs v : Nat) :
    girqEnRead (girqEnWrite r offs v) offs = v := by
  unfold girqEnRead girqEnWrite
  by_cases h : offs = 0 <;> simp [h]

/-- Bit-level description of `mkIrqen`: for a register value `x < 2^32` and
a bit position `s < 32`, exactly bit `s` is forced to `enable ≠ 0` and every
other bit keeps its old value; the result is again `< 2^32`. -/
lemma mkIrqen_testBit (x s enable : Nat) (hx : x < 2 ^ 32) (hs : s < 32) :
    (∀ j, (mkIrqen enable s x).testBit j =
      if j = s then decide (enable ≠ 0) else x.testBit j) ∧
    mkIrqen enable s x < 2 ^ 32 := by
  have h2 : (2 : Nat) ^ s < 2 ^ 32 := Nat.pow_lt_pow_right (by norm_num) hs
  unfold mkIrqen
  by_cases he : enable ≠ 0
  · simp only [if_pos he]
    have hor : x ||| 2 ^ s < 2 ^ 32 := Nat.or_lt_two_pow hx h2
    rw [Nat.one_shiftLeft, Nat.mod_eq_of_lt hor]
    refine ⟨fun j => ?_, hor⟩
    rw [Nat.testBit_or]
    by_cases hj : j = s
    · subst hj; simp [Nat.testBit_two_pow_self, he]
    · simp [Nat.testBit_two_pow_of_ne (Ne.symm hj), hj]
  · simp only [if_neg he]
    rw [Nat.one_shiftLeft, Nat.mod_eq_of_lt h2]
    refine ⟨fun j => ?_, lt_of_le_of_lt Nat.and_le_left hx⟩
    rw [Nat.testBit_and, Nat.testBit_xor, Nat.testBit_two_pow_sub_one]
    by_cases hj : j = s
    · subst hj; simp [Nat.testBit_two_pow_self, hs, he]
    · by_cases hj32 : j < 32
      · simp [hj, hj32, Nat.testBit_two_pow_of_ne (Ne.symm hj)]
      · have hxj : x.testBit j = false :=
          Nat.testBit_eq_false_of_lt
            (lt_of_lt_of_le hx
              (Nat.pow_le_pow_right (by norm_num) (le_of_not_lt hj32)))
        simp [hj, hj32, Nat.testBit_two_pow_of_ne (Ne.symm hj), hxj]

/-- One iteration of the verify loop in the store model: the read-back
matches the write, so the loop leaves with success after writing the
modified value. -/
lemma irqEnableVerify_succ (enable s offs fuel : Nat) (r : GirqRegs) :
    irqEnableVerify enable s offs (fuel + 1) r =
      (girqEnWrite r offs (mkIrqen enable s (girqEnRead r offs)), true) := by
  simp [irqEnableVerify, girqEnRead_write]

/-- Full characterisation of `CHAMELEON_IrqEnable` on a slot with resolved
interrupt line `k < 64`, when the GIRQ unit is mapped and the busy-wait
passes (API version 0, or in-use bit reading clear): the call succeeds, the
write-verify loop verifies in its first iteration, and exactly bit `k`
(resp. `k - 32`) of the lower (resp. upper) enable register is set/cleared,
all other bits of both halves unchanged. -/
lemma irqEnable_rmw (h : BbisHandle) (regs : GirqRegs)
    (slot enable fuel k : Nat)
    (hm : h.girqMapped = true) (hk : slotIrq h slot = .ok k) (hk64 : k < 64)
    (hwait : h.girqApiVersion = 0 ∨ regs.inUse &&& BBCHAM_GIRQ_IN_USE_BIT = 0)
    (hlo : regs.enLower < 2 ^ 32) (hhi : regs.enUpper < 2 ^ 32) :
    ∃ r' : GirqRegs,
      CHAMELEON_IrqEnable h regs slot enable fuel =
        some ⟨ERR_SUCCESS, r', true, true⟩ ∧
      (k < 32 →
        r'.enUpper = regs.enUpper ∧
        ∀ j, r'.enLower.testBit j =
          if j = k then decide (enable ≠ 0) else regs.enLower.testBit j) ∧
      (32 ≤ k →
        r'.enLower = regs.enLower ∧
        ∀ j, r'.enUpper.testBit j =
          if j = k - 32 then decide (enable ≠ 0) else regs.enUpper.testBit j) := by
  have hwaitEq :
      (if h.girqApiVersion ≠ 0 then girqInUseWait (fun _ => regs.inUse) fuel 0
       else some 0) = some 0 := by
    rcases hwait with ha | hb
    · simp [ha]
    · by_cases hapi : h.girqApiVersion = 0
      · simp [hapi]
      · cases fuel <;> simp [girqInUseWait, hb]
  unfold CHAMELEON_IrqEnable
  rw [hm, hk]
  simp only [if_true, hwaitEq]
  by_cases hgt : k > 31
  · -- upper half: offs = 4, slotShift = k - 32
    have hs : k - 32 < 32 := by omega
    obtain ⟨hbits, hlt⟩ := mkIrqen_testBit regs.enUpper (k - 32) enable hhi hs
    have hv : irqEnableVerify enable (k - 32) 4 10 regs =
        ({ regs with enUpper := mkIrqen enable (k - 32) regs.enUpper }, true) := by
      rw [show irqEnableVerify enable (k - 32) 4 10 regs =
          (girqEnWrite regs 4 (mkIrqen enable (k - 32) (girqEnRead regs 4)), true)
          from irqEnableVerify_succ enable (k - 32) 4 9 regs]
      simp [girqEnRead, girqEnWrite]
    simp only [if_pos hgt, hv]
    by_cases hapi : h.girqApiVersion = 0
    · exact ⟨{ regs with enUpper := mkIrqen enable (k - 32) regs.enUpper },
        by simp [hapi], fun hlt' => absurd hlt' (by omega),
        fun _ => ⟨rfl, hbits⟩⟩
    · exact ⟨⟨regs.enLower, mkIrqen enable (k - 32) regs.enUpper,
          BBCHAM_GIRQ_IN_USE_BIT⟩,
        by simp [hapi], fun hlt' => absurd hlt' (by omega),
        fun _ => ⟨rfl, hbits⟩⟩
  · -- lower half: offs = 0, slotShift = k
    have hs : k < 32 := by omega
    obtain ⟨hbits, hlt⟩ := mkIrqen_testBit regs.enLower k enable hlo hs
    have hv : irqEnableVerify enable k 0 10 regs =
        ({ regs with enLower := mkIrqen enable k regs.enLower }, true) := by
      rw [show irqEnableVerify enable k 0 10 regs =
          (girqEnWrite regs 0 (mkIrqen enable k (girqEnRead regs 0)), true)
          from irqEnableVerify_succ enable k 0 9 regs]
      simp [girqEnRead, girqEnWrite]
    simp only [if_neg hgt, hv]
    by_cases hapi : h.girqApiVersion = 0
    · exact ⟨{ regs with enLower := mkIrqen enable k regs.enLower },
        by simp [hapi], fun _ => ⟨rfl, hbits⟩,
        fun hge => absurd hge (by omega)⟩
    · exact ⟨⟨mkIrqen enable k regs.enLower, regs.enUpper,
          BBCHAM_GIRQ_IN_USE_BIT⟩,
        by simp [hapi], fun _ => ⟨rfl, hbits⟩,
        fun hge => absurd hge (by omega)⟩

/-- C2: For every slot whose resolved interrupt-line value is `k < 64`,
`CHAMELEON_IrqEnable` with enable=1 (resp. 0) performs a read-modify-write
that sets (resp. clears) exactly bit `k` of the lower 32-bit enable
register when `k < 32`, or exactly bit `k - 32` of the upper enable
register (the 4-byte-higher offset) when `k ≥ 32`, leaving all other bits
of both register halves unchanged, and the write-verify read-back succeeds
(`verifyOk = true`). -/
theorem irqEnable_bit_exact (h : BbisHandle) (regs : GirqRegs)
    (slot enable fuel k : Nat)
    (hm : h.girqMapped = true) (hk : slotIrq h slot = .ok k) (hk64 : k < 64)
    (hwait : h.girqApiVersion = 0 ∨ regs.inUse &&& BBCHAM_GIRQ_IN_USE_BIT = 0)
    (hlo : regs.enLower < 2 ^ 32) (hhi : regs.enUpper < 2 ^ 32) :
    ∃ r' : GirqRegs,
      CHAMELEON_IrqEnable h regs slot enable fuel =
        some ⟨ERR_SUCCESS, r', true, true⟩ ∧
      (k < 32 →
        r'.enUpper = regs.enUpper ∧
        ∀ j, r'.enLower.testBit j =
          if j = k then decide (enable ≠ 0) else regs.enLower.testBit j) ∧
      (32 ≤ k →
        r'.enLower = regs.enLower ∧
        ∀ j, r'.enUpper.testBit j =
          if j = k - 32 then decide (enable ≠ 0) else regs.enUpper.testBit j) :=
  irqEnable_rmw h regs slot enable fuel k hm hk hk64 hwait hlo hhi

/-- Witness for C2 at a concrete board: slot 0 holds a CAN unit with
interrupt line 33, so enabling sets bit 1 of the upper register half. -/
theorem irqEnable_bit_exact_witness :
    let u : ChamUnit := ⟨0x1D, 0, 0, 33, 0, 0, 0⟩
    let hW : BbisHandle :=
      ⟨0, 0, (fun n => if n = 0 then 0x1D else CHAMELEON_NO_DEV),
       fun _ => -1, fun _ => 0,
       (fun n => if n = 0 then some (Sum.inl u) else none),
       1, 0, true, [], true, 0⟩
    ∃ r' : GirqRegs,
      CHAMELEON_IrqEnable hW ⟨0xF0F0, 0xFFFF, 1⟩ 0 1 0 =
        some ⟨ERR_SUCCESS, r', true, true⟩ ∧
      r'.enUpper.testBit 1 = true ∧ r'.enLower = 0xF0F0 := by
  intro u hW
  obtain ⟨r', he, -, hup⟩ :=
    irqEnable_bit_exact hW ⟨0xF0F0, 0xFFFF, 1⟩ 0 1 0 33 rfl rfl
      (by decide) (Or.inl rfl) (by decide) (by decide)
  refine ⟨r', he, ?_, (hup (by norm_num)).1⟩
  simpa using (hup (by norm_num)).2 1

/-- C3 counterexample: on a board whose slot 0 module reports the
no-interrupt sentinel 0x3F, `CHAMELEON_IrqEnable` does NOT return an error
and does NOT leave the hardware untouched: it returns `ERR_SUCCESS` and
sets bit 31 of the upper enable register (sentinel treated as line 63). -/
theorem irqEnable_sentinel_counterexample :
    let u : ChamUnit := ⟨0x34, 0, 0, 0x3F, 0, 0, 0⟩
    let hW : BbisHandle :=
      ⟨0, 0, (fun n => if n = 0 then 0x34 else CHAMELEON_NO_DEV),
       fun _ => -1, fun _ => 0,
       (fun n => if n = 0 then some (Sum.inl u) else none),
       1, 0, true, [], true, 0⟩
    CHAMELEON_IrqEnable hW ⟨0, 0, 0⟩ 0 1 0 =
      some ⟨ERR_SUCCESS, ⟨0, 0x80000000, 0⟩, true, true⟩ := by
  intro u hW
  decide

/-- C3 amended: `CHAMELEON_IrqEnable` performs no sentinel check on the
interrupt line; its only explicit error (`ERR_BBIS_ILL_IRQPARAM`) is for
slots whose `devId` is `CHAMELEON_NO_DEV`.  For an occupied slot whose
resolved interrupt line is the 6-bit all-ones sentinel 0x3F, enabling
succeeds and sets bit 31 of the upper enable register (0x3F is treated as
interrupt line 63), leaving the lower register unchanged. -/
theorem irqEnable_sentinel_amended (h : BbisHandle) (regs : GirqRegs)
    (slot fuel : Nat)
    (hm : h.girqMapped = true) (hk : slotIrq h slot = .ok 0x3F)
    (hwait : h.girqApiVersion = 0 ∨ regs.inUse &&& BBCHAM_GIRQ_IN_USE_BIT = 0)
    (hlo : regs.enLower < 2 ^ 32) (hhi : regs.enUpper < 2 ^ 32) :
    ∃ r' : GirqRegs,
      CHAMELEON_IrqEnable h regs slot 1 fuel =
        some ⟨ERR_SUCCESS, r', true, true⟩ ∧
      r'.enLower = regs.enLower ∧
      ∀ j, r'.enUpper.testBit j =
        if j = 31 then true else regs.enUpper.testBit j := by
  obtain ⟨r', he, -, hup⟩ :=
    irqEnable_rmw h regs slot 1 fuel 0x3F hm hk (by norm_num) hwait hlo hhi
  refine ⟨r', he, (hup (by norm_num)).1, fun j => ?_⟩
  simpa using (hup (by norm_num)).2 j

/-- Witness for the amended C3 at a concrete board. -/
theorem irqEnable_sentinel_amended_witness :
    let u : ChamUnit := ⟨0x44, 0, 0, 0x3F, 0, 0, 0⟩
    let hW : BbisHandle :=
      ⟨0, 0, (fun n => if n = 7 then 0x44 else CHAMELEON_NO_DEV),
       fun _ => -1, fun _ => 0,
       (fun n => if n = 7 then some (Sum.inl u) else none),
       1, 0, true, [], true, 0⟩
    ∃ r' : GirqRegs,
      CHAMELEON_IrqEnable hW ⟨3, 5, 0⟩ 7 1 2 =
        some ⟨ERR_SUCCESS, r', true, true⟩ ∧
      r'.enLower = 3 ∧
      ∀ j, r'.enUpper.testBit j = if j = 31 then true else (5 : Nat).testBit j := by
  intro u hW
  exact irqEnable_sentinel_amended hW ⟨3, 5, 0⟩ 7 2 rfl rfl
    (Or.inl rfl) (by decide) (by decide)

/-- C7 (code bug): `CHAMELEON_IrqEnable` is the one slot-numbered operation
that does not bound-check its slot number: at slot 256 (one past the last
valid index, `CHAMELEON_BBIS_MAX_DEVS - 1 = 255`) it reads `h->devId[256]`
out of bounds; if the junk there does not look like `CHAMELEON_NO_DEV` the
call returns `ERR_SUCCESS` and writes the GIRQ enable register instead of
returning an illegal-slot error.  `CHAMELEON_GetMAddr` by contrast rejects
the same slot number with `ERR_BBIS_ILL_SLOT`. -/
theorem irqEnable_missing_bounds_check :
    let u : ChamUnit := ⟨0x22, 0, 0, 5, 0, 0, 0⟩
    let hJ : BbisHandle :=
      ⟨0, 0, (fun n => if n = 256 then 0x22 else CHAMELEON_NO_DEV),
       fun _ => -1, fun _ => 0,
       (fun n => if n = 256 then some (Sum.inl u) else none),
       0, 0, true, [], true, 0⟩
    CHAMELEON_IrqEnable hJ ⟨0, 0, 0⟩ 256 1 0 =
      some ⟨ERR_SUCCESS, ⟨0x20, 0, 0⟩, true, true⟩ ∧
    CHAMELEON_GetMAddr hJ 256 0 0 = .error ERR_BBIS_ILL_SLOT := by
  intro u hJ
  exact ⟨by decide, rfl⟩

/-! ## The write-verify loop against an arbitrary read sequence (C8)

`irqEnableVerifySeq` is the same loop as `irqEnableVerify`
(bb_chameleon.c lines 1878-1921) but with every `_MREAD_D32` drawn from an
arbitrary sequence `reads` of observed register values, modelling
interference from writers outside this process (the async `vxbmengirq`
case the source comment names).  `reads (2*i)` is iteration `i`'s
read-modify-write read, `reads (2*i+1)` its read-back.  The result is the
number of iterations executed and whether verification succeeded;
exhausting all 10 iterations returns (i, false) — the source only logs in
that case and continues. -/

def irqEnableVerifySeq (enable slotShift : Nat) (reads : Nat → Nat) :
    Nat → Nat → Nat × Bool
  | 0, i => (i, false)
  | fuel + 1, i =>
    let irqenNew := mkIrqen enable slotShift (reads (2 * i))
    if reads (2 * i + 1) = irqenNew then (i + 1, true)
    else irqEnableVerifySeq enable slotShift reads fuel (i + 1)

/-- Iteration count of the verify loop never exceeds remaining fuel plus
start index. -/
lemma irqEnableVerifySeq_le (enable slotShift : Nat) (reads : Nat → Nat) :
    ∀ fuel i, (irqEnableVerifySeq enable slotShift reads fuel i).1 ≤ fuel + i := by
  intro fuel
  induction fuel with
  | zero => intro i; simp [irqEnableVerifySeq]
  | succ f ih =>
    intro i
    simp only [irqEnableVerifySeq]
    split
    · simp; omega
    · have := ih (i + 1); omega

/-- The busy-wait terminates within `fuel` retries iff one of the first
`fuel + 1` reads has the in-use bit clear. -/
lemma girqInUseWait_isSome (reads : Nat → Nat) :
    ∀ fuel k, (girqInUseWait reads fuel k).isSome ↔
      ∃ j ≤ fuel, reads (k + j) &&& BBCHAM_GIRQ_IN_USE_BIT = 0 := by
  intro fuel
  induction fuel with
  | zero =>
    intro k
    constructor
    · intro hs
      by_cases hc : reads k &&& BBCHAM_GIRQ_IN_USE_BIT = 0
      · exact ⟨0, le_refl 0, by simpa using hc⟩
      · simp only [girqInUseWait, if_neg hc] at hs
        simp at hs
    · rintro ⟨j, hj, hr⟩
      interval_cases j
      simp [girqInUseWait, show reads k &&& BBCHAM_GIRQ_IN_USE_BIT = 0
        from by simpa using hr]
  | succ f ih =>
    intro k
    by_cases hc : reads k &&& BBCHAM_GIRQ_IN_USE_BIT = 0
    · constructor
      · intro _
        exact ⟨0, Nat.zero_le _, by simpa using hc⟩
      · intro _
        simp [girqInUseWait, hc]
    · simp only [girqInUseWait, if_neg hc]
      rw [ih (k + 1)]
      constructor
      · rintro ⟨j, hj, hr⟩
        exact ⟨j + 1, by omega, by rwa [show k + (j + 1) = k + 1 + j by omega]⟩
      · rintro ⟨j, hj, hr⟩
        match j with
        | 0 => exact absurd (by simpa using hr) hc
        | j + 1 =>
          exact ⟨j, by omega, by rwa [show k + 1 + j = k + (j + 1) by omega]⟩

/-- C8 counterexample: the claim that the busy-wait loop terminates within
some fixed retry bound for every possible sequence of register read values
is false — for every candidate bound `B`, the read sequence that always
returns the in-use bit set keeps `girqInUseWait` spinning. -/
theorem girq_busy_wait_unbounded :
    ¬ ∃ B : Nat, ∀ reads : Nat → Nat, (girqInUseWait reads B 0).isSome := by
  rintro ⟨B, hB⟩
  have hstuck : ∀ fuel k, girqInUseWait (fun _ => 1) fuel k = none := by
    intro fuel
    induction fuel with
    | zero => intro k; simp [girqInUseWait, BBCHAM_GIRQ_IN_USE_BIT]
    | succ f ih => intro k; simp [girqInUseWait, BBCHAM_GIRQ_IN_USE_BIT, ih]
  have h1 := hB (fun _ => 1)
  rw [hstuck B 0] at h1
  simp at h1

/-- C8 amended: only the write-verify retry loop is bounded — it executes
at most 10 iterations for every possible sequence of register read values,
and exhausting the bound is a soft failure (the loop returns with the
verified flag false; the source merely logs).  The in-use busy-wait has no
retry bound: it terminates within `fuel` retries exactly when one of the
first `fuel + 1` reads returns the in-use bit clear, so a permanently set
bit spins it forever. -/
theorem girq_loop_bounds :
    (∀ (enable slotShift : Nat) (reads : Nat → Nat),
      (irqEnableVerifySeq enable slotShift reads 10 0).1 ≤ 10) ∧
    (∀ (reads : Nat → Nat) (fuel : Nat),
      (girqInUseWait reads fuel 0).isSome ↔
        ∃ j ≤ fuel, reads j &&& BBCHAM_GIRQ_IN_USE_BIT = 0) := by
  constructor
  · intro enable slotShift reads
    simpa using irqEnableVerifySeq_le enable slotShift reads 10 0
  · intro reads fuel
    simpa using girqInUseWait_isSome reads fuel 0

/-! ## PCI path resolver (bb_chameleon.c lines 2539-2711)

`OSS_PciGetConfig` (external OSS layer) is an oracle
`cfg mergedBusNbr devNbr funcNbr reg` returning an OSS error code or the
register value.  The non-VxWorks build is modelled. -/

abbrev PciCfg := Nat → Nat → Nat → Nat → Except Nat Nat

/-- External oss.h register selectors / constants (values modelled,
only identity is used). -/
def OSS_PCI_VENDOR_ID : Nat := 0
def OSS_PCI_DEVICE_ID : Nat := 1
def OSS_PCI_HEADER_TYPE : Nat := 2
def OSS_PCI_ACCESS_8 : Nat := 0x01000000
def OSS_PCI_HEADERTYPE_BRIDGE_TYPE : Nat := 1
def OSS_PCI_HEADERTYPE_MULTIFUNCTION : Nat := 0x80

/-- `OSS_MERGE_BUS_DOMAIN` (external oss.h): pack domain and bus into one
word; used purely as an opaque key into the config-space oracle. -/
def OSS_MERGE_BUS_DOMAIN (bus domain : Nat) : Nat := bus ||| (domain <<< 16)

/-- Separate the function number from the device number (lines 2658-2663):
path bytes > 0x1f carry the function in their upper 3 bits. -/
def pciDevFuncOf (pciDevNbr : Nat) : Nat × Nat :=
  if pciDevNbr > 0x1f then (pciDevNbr &&& 0x1f, pciDevNbr >>> 5)
  else (pciDevNbr, 0)

/-- The four out-parameters of `PciParseDev`; in the source they are locals
of `ParsePciPath` that persist across hops, so unwritten ones keep their
previous values. -/
structure PciDevRegs where
  vendorID : Nat
  deviceID : Nat
  headerType : Nat
  secondBus : Nat
  deriving Repr, DecidableEq

/-- `PciParseDev` (lines 2641-2711): read vendor and device id; on
0xffff/0xffff report "not present" as success (header type and secondary
bus keep their previous values); otherwise read the header type; a
non-bridge type is also success (secondary bus keeps its previous value);
for a bridge additionally read the secondary bus number.  Any config access
error is propagated (via `PciCfgErr`, which only prints). -/
def PciParseDev (cfg : PciCfg) (pciBusNbr pciDevNbr : Nat)
    (prev : PciDevRegs) : Except Nat PciDevRegs :=
  let dn := (pciDevFuncOf pciDevNbr).1
  let fn := (pciDevFuncOf pciDevNbr).2
  match cfg pciBusNbr dn fn OSS_PCI_VENDOR_ID with
  | .error e => .error e
  | .ok vendorID =>
    match cfg pciBusNbr dn fn OSS_PCI_DEVICE_ID with
    | .error e => .error e
    | .ok deviceID =>
      if vendorID = 0xffff ∧ deviceID = 0xffff then
        .ok { prev with vendorID := vendorID, deviceID := deviceID }
      else
        match cfg pciBusNbr dn fn OSS_PCI_HEADER_TYPE with
        | .error e => .error e
        | .ok headerType =>
          if headerType &&& (0xffffffff ^^^ OSS_PCI_HEADERTYPE_MULTIFUNCTION)
              ≠ OSS_PCI_HEADERTYPE_BRIDGE_TYPE then
            .ok ⟨vendorID, deviceID, headerType, prev.secondBus⟩
          else
            match cfg pciBusNbr dn fn
                (PCI_SECONDARY_BUS_NUMBER ||| OSS_PCI_ACCESS_8) with
            | .error e => .error e
            | .ok secondBus => .ok ⟨vendorID, deviceID, headerType, secondBus⟩

/-- The bus-probe loop for the first hop on a nonzero domain (lines
2563-2575): try `PciParseDev` on every bus 0..0xfe, stopping at the first
bus where it succeeds; if none succeeds, the last error is returned.
`remaining` counts the buses still to try (0xff at entry, so the `0` arm is
unreachable). -/
def pciProbeBuses (cfg : PciCfg) (domain dev : Nat) (regs : PciDevRegs) :
    Nat → Nat → Except Nat (Nat × PciDevRegs)
  | _bus, 0 => .error ERR_BBIS_NO_CHECKLOC
  | bus, remaining + 1 =>
    match PciParseDev cfg (OSS_MERGE_BUS_DOMAIN bus domain) dev regs with
    | .ok r => .ok (bus, r)
    | .error e =>
      if remaining = 0 then .error e
      else pciProbeBuses cfg domain dev regs (bus + 1) remaining

/-- The hop loop of `ParsePciPath` (lines 2547-2616): `i` is the hop index
(the probe applies only at `i = 0` on a nonzero domain), `pciBusNbr` the
current bus, `regs` the persistent out-parameter locals. -/
def ParsePciPathGo (cfg : PciCfg) (domain : Nat) :
    List Nat → Nat → Nat → PciDevRegs → Except Nat Nat
  | [], _i, pciBusNbr, _regs => .ok pciBusNbr
  | pciDevNbr :: rest, i, pciBusNbr, regs =>
    let step : Except Nat (Nat × PciDevRegs) :=
      if i = 0 ∧ domain ≠ 0 then
        pciProbeBuses cfg domain pciDevNbr regs 0 0xff
      else
        (PciParseDev cfg (OSS_MERGE_BUS_DOMAIN pciBusNbr domain) pciDevNbr
          regs).map (fun r => (pciBusNbr, r))
    match step with
    | .error e => .error e
    | .ok (_, r) =>
      if r.vendorID = 0xffff ∧ r.deviceID = 0xffff then
        .error ERR_BBIS_NO_CHECKLOC      -- nonexistant device
      else if r.headerType &&& (0xffffffff ^^^ OSS_PCI_HEADERTYPE_MULTIFUNCTION)
          ≠ OSS_PCI_HEADERTYPE_BRIDGE_TYPE then
        .error ERR_BBIS_NO_CHECKLOC      -- device is not a bridge
      else
        ParsePciPathGo cfg domain rest (i + 1) r.secondBus r

/-- `ParsePciPath` (lines 2539-2624): resolve the bus number at the end of
the PCI_BUS_PATH bridge chain, starting at bus 0.  The out-parameter locals
are uninitialised in C; they are never read before first written on any
path the theorems cover, and are modelled as 0. -/
def ParsePciPath (cfg : PciCfg) (pciDomainNbr : Nat) (pciPath : List Nat) :
    Except Nat Nat :=
  ParsePciPathGo cfg pciDomainNbr pciPath 0 0 ⟨0, 0, 0, 0⟩

/-- Spec-side walker, written from the spec's words (§4.1): for each hop in
order, read vendor/device id and fail when both read the all-ones sentinel
0xFFFF (device absent); read the header type and fail unless, with the
multi-function bit masked off, it equals the bridge header type; read the
secondary-bus-number register and continue the walk on that bus; return the
last secondary-bus value as the resolved bus; propagate config access
errors. -/
def pciPathSpecWalk (cfg : PciCfg) (domain : Nat) :
    List Nat → Nat → Except Nat Nat
  | [], bus => .ok bus
  | d :: rest, bus =>
    let dn := (pciDevFuncOf d).1
    let fn := (pciDevFuncOf d).2
    let mb := OSS_MERGE_BUS_DOMAIN bus domain
    match cfg mb dn fn OSS_PCI_VENDOR_ID with
    | .error e => .error e
    | .ok v =>
      match cfg mb dn fn OSS_PCI_DEVICE_ID with
      | .error e => .error e
      | .ok dv =>
        if v = 0xffff ∧ dv = 0xffff then .error ERR_BBIS_NO_CHECKLOC
        else
          match cfg mb dn fn OSS_PCI_HEADER_TYPE with
          | .error e => .error e
          | .ok ht =>
            if ht &&& (0xffffffff ^^^ OSS_PCI_HEADERTYPE_MULTIFUNCTION)
                ≠ OSS_PCI_HEADERTYPE_BRIDGE_TYPE then
              .error ERR_BBIS_NO_CHECKLOC
            else
              match cfg mb dn fn
                  (PCI_SECONDARY_BUS_NUMBER ||| OSS_PCI_ACCESS_8) with
              | .error e => .error e
              | .ok sb => pciPathSpecWalk cfg domain rest sb

/-- On domain 0 the hop loop coincides with the spec-side walk regardless
of the carried out-parameter locals. -/
lemma parsePciPathGo_eq_spec (cfg : PciCfg) :
    ∀ (rest : List Nat) (i bus : Nat) (regs : PciDevRegs),
      ParsePciPathGo cfg 0 rest i bus regs = pciPathSpecWalk cfg 0 rest bus := by
  intro rest
  induction rest with
  | nil => intro i bus regs; rfl
  | cons d rest ih =>
    intro i bus regs
    simp only [ParsePciPathGo, pciPathSpecWalk]
    rw [if_neg (by simp)]
    unfold PciParseDev
    cases hv : cfg (OSS_MERGE_BUS_DOMAIN bus 0) (pciDevFuncOf d).1
        (pciDevFuncOf d).2 OSS_PCI_VENDOR_ID with
    | error e => simp [hv, Except.map]
    | ok v =>
      cases hd : cfg (OSS_MERGE_BUS_DOMAIN bus 0) (pciDevFuncOf d).1
          (pciDevFuncOf d).2 OSS_PCI_DEVICE_ID with
      | error e => simp [hv, hd, Except.map]
      | ok dv =>
        by_cases habs : v = 0xffff ∧ dv = 0xffff
        · simp [hv, hd, Except.map, habs]
        · cases hh : cfg (OSS_MERGE_BUS_DOMAIN bus 0) (pciDevFuncOf d).1
              (pciDevFuncOf d).2 OSS_PCI_HEADER_TYPE with
          | error e => simp [hv, hd, habs, hh, Except.map]
          | ok ht =>
            by_cases hbr : ht &&& (0xffffffff ^^^ OSS_PCI_HEADERTYPE_MULTIFUNCTION)
                ≠ OSS_PCI_HEADERTYPE_BRIDGE_TYPE
            · simp [hv, hd, habs, hh, hbr, Except.map]
            · cases hs : cfg (OSS_MERGE_BUS_DOMAIN bus 0) (pciDevFuncOf d).1
                  (pciDevFuncOf d).2
                  (PCI_SECONDARY_BUS_NUMBER ||| OSS_PCI_ACCESS_8) with
              | error e => simp [hv, hd, habs, hh, hbr, hs, Except.map]
              | ok sb => simp [hv, hd, habs, hh, hbr, hs, Except.map, ih]

/-- C5: the PCI bridge-chain resolver.
1. On the default domain 0 the source loop (`ParsePciPath`) computes, for
   every config space and every path, exactly the spec-side walk
   `pciPathSpecWalk`: hop by hop in list order, reading vendor/device id,
   header type, and secondary bus number, continuing on the secondary bus
   and returning the last one.
2. A hop whose vendor and device id both read 0xFFFF makes the walk fail
   with `ERR_BBIS_NO_CHECKLOC` independently of all later hops (they are
   never processed).
3. A present hop whose header type, with the multi-function bit masked
   off, is not the bridge header type likewise fails with
   `ERR_BBIS_NO_CHECKLOC` independently of all later hops.
4. A present bridge hop with secondary bus `sb` continues the walk on `sb`
   with the remaining hops. -/
theorem parsePciPath_walk :
    (∀ (cfg : PciCfg) (path : List Nat),
      ParsePciPath cfg 0 path = pciPathSpecWalk cfg 0 path 0) ∧
    (∀ (cfg : PciCfg) (domain bus d : Nat) (rest : List Nat),
      cfg (OSS_MERGE_BUS_DOMAIN bus domain) (pciDevFuncOf d).1
          (pciDevFuncOf d).2 OSS_PCI_VENDOR_ID = .ok 0xffff →
      cfg (OSS_MERGE_BUS_DOMAIN bus domain) (pciDevFuncOf d).1
          (pciDevFuncOf d).2 OSS_PCI_DEVICE_ID = .ok 0xffff →
      pciPathSpecWalk cfg domain (d :: rest) bus =
        .error ERR_BBIS_NO_CHECKLOC) ∧
    (∀ (cfg : PciCfg) (domain bus d : Nat) (rest : List Nat) (v dv ht : Nat),
      cfg (OSS_MERGE_BUS_DOMAIN bus domain) (pciDevFuncOf d).1
          (pciDevFuncOf d).2 OSS_PCI_VENDOR_ID = .ok v →
      cfg (OSS_MERGE_BUS_DOMAIN bus domain) (pciDevFuncOf d).1
          (pciDevFuncOf d).2 OSS_PCI_DEVICE_ID = .ok dv →
      ¬(v = 0xffff ∧ dv = 0xffff) →
      cfg (OSS_MERGE_BUS_DOMAIN bus domain) (pciDevFuncOf d).1
          (pciDevFuncOf d).2 OSS_PCI_HEADER_TYPE = .ok ht →
      ht &&& (0xffffffff ^^^ OSS_PCI_HEADERTYPE_MULTIFUNCTION)
          ≠ OSS_PCI_HEADERTYPE_BRIDGE_TYPE →
      pciPathSpecWalk cfg domain (d :: rest) bus =
        .error ERR_BBIS_NO_CHECKLOC) ∧
    (∀ (cfg : PciCfg) (domain bus d : Nat) (rest : List Nat) (v dv ht sb : Nat),
      cfg (OSS_MERGE_BUS_DOMAIN bus domain) (pciDevFuncOf d).1
          (pciDevFuncOf d).2 OSS_PCI_VENDOR_ID = .ok v →
      cfg (OSS_MERGE_BUS_DOMAIN bus domain) (pciDevFuncOf d).1
          (pciDevFuncOf d).2 OSS_PCI_DEVICE_ID = .ok dv →
      ¬(v = 0xffff ∧ dv = 0xffff) →
      cfg (OSS_MERGE_BUS_DOMAIN bus domain) (pciDevFuncOf d).1
          (pciDevFuncOf d).2 OSS_PCI_HEADER_TYPE = .ok ht →
      ht &&& (0xffffffff ^^^ OSS_PCI_HEADERTYPE_MULTIFUNCTION)
          = OSS_PCI_HEADERTYPE_BRIDGE_TYPE →
      cfg (OSS_MERGE_BUS_DOMAIN bus domain) (pciDevFuncOf d).1
          (pciDevFuncOf d).2
          (PCI_SECONDARY_BUS_NUMBER ||| OSS_PCI_ACCESS_8) = .ok sb →
      pciPathSpecWalk cfg domain (d :: rest) bus =
        pciPathSpecWalk cfg domain rest sb) := by
  refine ⟨fun cfg path => parsePciPathGo_eq_spec cfg path 0 0 ⟨0, 0, 0, 0⟩,
    ?_, ?_, ?_⟩
  · intro cfg domain bus d rest hv hd
    simp [pciPathSpecWalk, hv, hd]
  · intro cfg domain bus d rest v dv ht hv hd habs hh hbr
    simp [pciPathSpecWalk, hv, hd, habs, hh, hbr]
  · intro cfg domain bus d rest v dv ht sb hv hd habs hh hbr hs
    simp [pciPathSpecWalk, hv, hd, habs, hh, hbr, hs]

/-- Witness for C5: a concrete 3-hop config space in which hop 1 (device 1
on bus 0) is a bridge to bus 5 and hop 2 (device 2 on bus 5) reports a
non-bridge header type: the walk fails with `ERR_BBIS_NO_CHECKLOC` before
hop 3, while the 1-hop path resolves to bus 5. -/
theorem parsePciPath_walk_witness :
    let cfg : PciCfg := fun mb dn _fn reg =>
      if mb = 0 ∧ dn = 1 then
        if reg = OSS_PCI_VENDOR_ID then .ok 0x1234
        else if reg = OSS_PCI_DEVICE_ID then .ok 0x5678
        else if reg = OSS_PCI_HEADER_TYPE then .ok 0x81
        else .ok 5
      else if mb = 5 ∧ dn = 2 then
        if reg = OSS_PCI_VENDOR_ID then .ok 0x1234
        else if reg = OSS_PCI_DEVICE_ID then .ok 0x9abc
        else if reg = OSS_PCI_HEADER_TYPE then .ok 0x00
        else .ok 9
      else .ok 0xffff
    ParsePciPath cfg 0 [1, 2, 3] = .error ERR_BBIS_NO_CHECKLOC ∧
    ParsePciPath cfg 0 [1] = .ok 5 := by
  intro cfg
  constructor
  · rw [parsePciPath_walk.1]
    rfl
  · rw [parsePciPath_walk.1]
    rfl

/-! ## Enumeration engine (CHAMELEON_BrdInit, bb_chameleon.c lines 880-1140)

The engine populates the slot registry either by automatic enumeration over
the chameleon table (a `List ChamUnit`, iterated in table order like the
`UnitIdent` loop) or by manual lookup of the declared slots through the
external `InstanceFind` (an abstract `ChamFind → Option ChamUnit`). -/

/-- Pointwise array write (`arr[i] = v`). -/
def aset {α : Type} (f : Nat → α) (i : Nat) (v : α) : Nat → α :=
  fun n => if n = i then v else f n

/-- Registry state threaded through the BrdInit loops: `devCount`,
`devId[]`, `dev[]`, plus (automatic mode) the used prefix of the local
`excludedGroups[]` array. -/
@[ext] structure EnumState where
  devCount : Nat
  devId : Nat → Nat
  dev : Nat → DevSlot
  excludedGroups : List Nat

/-- The `excludedGroups` lookup loop (lines 942-951): scan entries in order
up to the 0 end-of-list marker, true on the first entry equal to the
(promoted) group id. -/
def exclGroupsLookup (l : List Nat) (g : Nat) : Bool :=
  match l with
  | [] => false
  | x :: xs => if x = 0 then false else if x = g then true else exclGroupsLookup xs g

/-- The `excludedGroups` insert loop (lines 926-936): write the group id
(cast `(u_int8)`, i.e. `% 256`) into the first free entry among indices
0..`CHAMELEON_BBIS_MAX_GRPS - 2`, moving the 0 end marker behind it.  With
the list as the used prefix: append `g % 256` when fewer than
`CHAMELEON_BBIS_MAX_GRPS - 1` entries are used; a group id whose low byte
is 0 writes the end marker onto itself, leaving the used prefix unchanged. -/
def exclGroupsInsert (l : List Nat) (g : Nat) : List Nat :=
  if l.length < CHAMELEON_BBIS_MAX_GRPS - 1 then
    if g % 256 = 0 then l else l ++ [g % 256]
  else l

/-- The group-slot search (lines 905-911 and 977-1005): the first slot
`n < devCount` with `devId[n] == CHAMELEON_BBIS_GROUP` whose group record
has `grpId == g`. -/
def findGrpSlot (s : EnumState) (g : Nat) : Option Nat :=
  (List.range s.devCount).find? (fun n =>
    s.devId n == CHAMELEON_BBIS_GROUP && (slotGrp (s.dev n)).grpId == g)

/-- `group == 0 || !groupBaseDevIncluded` (lines 901-917): the unit has no
group, or no slot announces its group yet (its base member not included). -/
def autoEnumConsider (s : EnumState) (u : ChamUnit) : Bool :=
  u.group == 0 || !(u.group != 0 && (findGrpSlot s u.group).isSome)

/-- The exclusion-list scan outcome (lines 920-939): evaluated only in the
`autoEnumConsider` case; the scan breaks on the first matching entry. -/
def autoEnumMatched (excl : List Nat) (s : EnumState) (u : ChamUnit) : Bool :=
  autoEnumConsider s u && excl.contains u.devId

/-- The `excludedGroups` list after the scan (lines 926-936): a matching
grouped unit records its group id. -/
def autoEnumNewExcl (excl : List Nat) (s : EnumState) (u : ChamUnit) :
    List Nat :=
  if autoEnumMatched excl s u && u.group != 0 then
    exclGroupsInsert s.excludedGroups u.group
  else s.excludedGroups

/-- The final `exclude` flag (lines 914-951): matched directly, or a member
of a group marked in `excludedGroups`. -/
def autoEnumExclude (excl : List Nat) (s : EnumState) (u : ChamUnit) : Bool :=
  autoEnumMatched excl s u ||
    (autoEnumConsider s u && u.group != 0 &&
      exclGroupsLookup s.excludedGroups u.group)

/-- One iteration of the automatic-enumeration loop (lines 892-1050) on the
unit read from the table. -/
def autoEnumStep (excl : List Nat) (s : EnumState) (u : ChamUnit) :
    EnumState :=
  let excludedGroups' := autoEnumNewExcl excl s u
  if autoEnumExclude excl s u then { s with excludedGroups := excludedGroups' }
  else if u.group == 0 then
    -- module should be used? no group (lines 955-973)
    { devCount := s.devCount + 1,
      devId := aset s.devId s.devCount u.devId,
      dev := aset s.dev s.devCount (some (Sum.inl u)),
      excludedGroups := excludedGroups' }
  else
    -- module should be used? group (lines 975-1048)
    match findGrpSlot s u.group with
    | some n =>
      let g := slotGrp (s.dev n)
      if g.devCount < CHAMELEON_BBIS_MAX_DEVS then
        -- attach module to group
        let g' : BbisChamGrp :=
          { g with devId := aset g.devId g.devCount u.devId,
                   dev := aset g.dev g.devCount (some u),
                   devCount := g.devCount + 1 }
        { devCount := s.devCount,
          devId := s.devId,
          dev := aset s.dev n (some (Sum.inr g')),
          excludedGroups := excludedGroups' }
      else { s with excludedGroups := excludedGroups' }
      -- too many devices in group: member dropped, logged only
    | none =>
      if s.devCount < CHAMELEON_BBIS_MAX_DEVS then
        -- no group yet for this module: new group seeded with this unit
        let g0 : BbisChamGrp :=
          { grpId := u.group,
            devId := aset (fun _ => CHAMELEON_NO_DEV) 0 u.devId,
            idx := fun _ => 0,
            dev := aset (fun _ => none) 0 (some u),
            devCount := 1 }
        { devCount := s.devCount + 1,
          devId := aset s.devId s.devCount CHAMELEON_BBIS_GROUP,
          dev := aset s.dev s.devCount (some (Sum.inr g0)),
          excludedGroups := excludedGroups' }
      else { s with excludedGroups := excludedGroups' }

/-- The automatic-enumeration loop (lines 892-1050): process table units in
order while `devCount < CHAMELEON_BBIS_MAX_DEVS` (capacity exhaustion
silently stops enumeration). -/
def autoEnumRun (excl : List Nat) (s : EnumState) : List ChamUnit → EnumState
  | [] => s
  | u :: rest =>
    if s.devCount < CHAMELEON_BBIS_MAX_DEVS then
      autoEnumRun excl (autoEnumStep excl s u) rest
    else s

/-- Slot `n` announces group `g`: `devId[n]` holds the group sentinel and
the group record's id is `g`. -/
def slotIsGrp (s : EnumState) (n g : Nat) : Prop :=
  s.devId n = CHAMELEON_BBIS_GROUP ∧ (slotGrp (s.dev n)).grpId = g

instance (s : EnumState) (n g : Nat) : Decidable (slotIsGrp s n g) := by
  unfold slotIsGrp; infer_instance

/-- No assigned slot announces group `g`. -/
def noGrpSlot (s : EnumState) (g : Nat) : Prop :=
  ∀ n < s.devCount, ¬ slotIsGrp s n g

/-- All used entries of the excluded-groups list are nonzero (0 is the
end-of-list marker). -/
def exclClean (l : List Nat) : Prop := ∀ x ∈ l, x ≠ 0

lemma exclGroupsInsert_clean {l : List Nat} {g : Nat} (hc : exclClean l) :
    exclClean (exclGroupsInsert l g) := by
  unfold exclGroupsInsert
  split_ifs with h1 h2
  · exact hc
  · intro x hx
    rcases List.mem_append.mp hx with h | h
    · exact hc x h
    · simp only [List.mem_singleton] at h
      subst h; exact h2
  · exact hc

lemma exclGroupsInsert_mem {l : List Nat} {g x : Nat} (hx : x ∈ l) :
    x ∈ exclGroupsInsert l g := by
  unfold exclGroupsInsert
  split_ifs
  · exact hx
  · exact List.mem_append_left _ hx
  · exact hx

lemma exclGroupsInsert_self {l : List Nat} {g : Nat}
    (hlen : l.length < CHAMELEON_BBIS_MAX_GRPS - 1) (hg : g % 256 ≠ 0) :
    g % 256 ∈ exclGroupsInsert l g := by
  unfold exclGroupsInsert
  rw [if_pos hlen, if_neg hg]
  exact List.mem_append_right _ (List.mem_singleton_self _)

lemma exclGroupsLookup_of_mem {l : List Nat} {g : Nat}
    (hc : exclClean l) (hg : g ∈ l) : exclGroupsLookup l g = true := by
  induction l with
  | nil => simp at hg
  | cons x xs ih =>
    unfold exclGroupsLookup
    rw [if_neg (hc x (List.mem_cons_self x xs))]
    by_cases hxg : x = g
    · rw [if_pos hxg]
    · rw [if_neg hxg]
      refine ih (fun y hy => hc y (List.mem_cons_of_mem x hy)) ?_
      rcases List.mem_cons.mp hg with h | h
      · exact absurd h.symm hxg
      · exact h

lemma findGrpSlot_eq_none {s : EnumState} {g : Nat} (h : noGrpSlot s g) :
    findGrpSlot s g = none := by
  unfold findGrpSlot
  rw [List.find?_eq_none]
  intro n hn
  rw [List.mem_range] at hn
  intro hb
  rw [Bool.and_eq_true, beq_iff_eq, beq_iff_eq] at hb
  exact h n hn ⟨hb.1, hb.2⟩

lemma findGrpSlot_some {s : EnumState} {g n : Nat}
    (h : findGrpSlot s g = some n) :
    n < s.devCount ∧ s.devId n = CHAMELEON_BBIS_GROUP ∧
      (slotGrp (s.dev n)).grpId = g := by
  unfold findGrpSlot at h
  have hmem := List.mem_of_find?_eq_some h
  have hp := List.find?_some h
  rw [List.mem_range] at hmem
  rw [Bool.and_eq_true, beq_iff_eq, beq_iff_eq] at hp
  exact ⟨hmem, hp.1, hp.2⟩

lemma autoEnumNewExcl_mem {excl : List Nat} {s : EnumState} {u : ChamUnit}
    {g : Nat} (hmem : g ∈ s.excludedGroups) :
    g ∈ autoEnumNewExcl excl s u := by
  unfold autoEnumNewExcl
  split_ifs
  · exact exclGroupsInsert_mem hmem
  · exact hmem

lemma autoEnumNewExcl_clean {excl : List Nat} {s : EnumState} {u : ChamUnit}
    (hc : exclClean s.excludedGroups) :
    exclClean (autoEnumNewExcl excl s u) := by
  unfold autoEnumNewExcl
  split_ifs
  · exact exclGroupsInsert_clean hc
  · exact hc

lemma autoEnumStep_excl_mem {excl : List Nat} {s : EnumState} {u : ChamUnit}
    {g : Nat} (hmem : g ∈ s.excludedGroups) :
    g ∈ (autoEnumStep excl s u).excludedGroups := by
  have h' := @autoEnumNewExcl_mem excl s u _ hmem
  unfold autoEnumStep
  dsimp only
  repeat' split
  all_goals exact h'

lemma autoEnumStep_excl_clean {excl : List Nat} {s : EnumState} {u : ChamUnit}
    (hc : exclClean s.excludedGroups) :
    exclClean (autoEnumStep excl s u).excludedGroups := by
  have h' := @autoEnumNewExcl_clean excl s u hc
  unfold autoEnumStep
  dsimp only
  repeat' split
  all_goals exact h'

/-- A unit of a different group never creates or retargets a slot of
group `g`. -/
lemma autoEnumStep_noGrpSlot {excl : List Nat} {s : EnumState} {u : ChamUnit}
    {g : Nat} (hg : g ≠ 0) (hug : u.group ≠ g) (hs : noGrpSlot s g) :
    noGrpSlot (autoEnumStep excl s u) g := by
  unfold autoEnumStep
  dsimp only
  by_cases hex : autoEnumExclude excl s u = true
  · rw [if_pos hex]
    exact fun n hn hp => hs n hn hp
  · rw [if_neg hex]
    by_cases hgrp0 : (u.group == 0) = true
    · rw [if_pos hgrp0]
      -- single unit appended at index devCount
      intro n hn hp
      obtain ⟨h1, h2⟩ := hp
      dsimp only [slotIsGrp] at h1 h2 ⊢
      have hn' : n < s.devCount + 1 := hn
      by_cases hnc : n = s.devCount
      · subst hnc
        have h2' : (slotGrp (some (Sum.inl u))).grpId = g := by
          simpa [aset] using h2
        exact hg (by simpa [slotGrp, junkGrp] using h2'.symm)
      · exact hs n (by omega) ⟨by simpa [aset, hnc] using h1,
          by simpa [aset, hnc] using h2⟩
    · rw [if_neg hgrp0]
      rcases hfind : findGrpSlot s u.group with _ | n₀
      · dsimp only
        by_cases hcap : s.devCount < CHAMELEON_BBIS_MAX_DEVS
        · rw [if_pos hcap]
          -- new group announced at index devCount with grpId = u.group ≠ g
          intro n hn hp
          obtain ⟨h1, h2⟩ := hp
          have hn' : n < s.devCount + 1 := hn
          by_cases hnc : n = s.devCount
          · subst hnc
            have h2' : u.group = g := by
              simpa [aset, slotGrp] using h2
            exact hug h2'
          · exact hs n (by omega) ⟨by simpa [aset, hnc] using h1,
              by simpa [aset, hnc] using h2⟩
        · rw [if_neg hcap]
          exact fun n hn hp => hs n hn hp
      · dsimp only
        obtain ⟨hn₀lt, hn₀id, hn₀g⟩ := findGrpSlot_some hfind
        by_cases hcap : (slotGrp (s.dev n₀)).devCount < CHAMELEON_BBIS_MAX_DEVS
        · rw [if_pos hcap]
          -- member appended inside the group record at slot n₀
          intro n hn hp
          obtain ⟨h1, h2⟩ := hp
          have hn' : n < s.devCount := hn
          by_cases hnn : n = n₀
          · subst hnn
            have h2' : (slotGrp (s.dev n)).grpId = g := by
              simpa [aset, slotGrp] using h2
            rw [hn₀g] at h2'
            exact hug h2'
          · exact hs n hn' ⟨h1, by simpa [aset, hnn] using h2⟩
        · rw [if_neg hcap]
          exact fun n hn hp => hs n hn hp

/-- A unit of the excluded group `g` itself is skipped: either its device
id matches the exclusion list or `g` is found in the excluded-groups list;
in both cases the slot arrays are untouched. -/
lemma autoEnumStep_excluded_noGrpSlot {excl : List Nat} {s : EnumState}
    {u : ChamUnit} {g : Nat} (hg : g ≠ 0) (hug : u.group = g)
    (hnog : noGrpSlot s g)
    (hor : excl.contains u.devId = true ∨
      exclGroupsLookup s.excludedGroups u.group = true) :
    noGrpSlot (autoEnumStep excl s u) g := by
  have hfind : findGrpSlot s u.group = none := by
    rw [hug]; exact findGrpSlot_eq_none hnog
  have hgne : u.group ≠ 0 := by rw [hug]; exact hg
  have hexval : autoEnumExclude excl s u = true := by
    unfold autoEnumExclude autoEnumMatched autoEnumConsider
    rcases hor with hc | hl
    · simp [hfind, hgne, List.mem_of_elem_eq_true hc]
    · simp [hfind, hl, hgne]
  unfold autoEnumStep
  dsimp only
  rw [if_pos hexval]
  exact fun n hn hp => hnog n hn hp

/-- Processing the base (first) member of group `g` records `g` in the
excluded-groups list, provided the list still has room. -/
lemma autoEnumStep_base_mem {excl : List Nat} {s : EnumState}
    {base : ChamUnit} {g : Nat} (hg : g ≠ 0) (h256 : g < 256)
    (hbase : base.group = g) (hcont : excl.contains base.devId = true)
    (hnog : noGrpSlot s g)
    (hroom : s.excludedGroups.length < CHAMELEON_BBIS_MAX_GRPS - 1) :
    g ∈ (autoEnumStep excl s base).excludedGroups := by
  subst hbase
  have hfind : findGrpSlot s base.group = none := findGrpSlot_eq_none hnog
  have hmod : base.group % 256 = base.group := Nat.mod_eq_of_lt h256
  have h' : base.group ∈ autoEnumNewExcl excl s base := by
    unfold autoEnumNewExcl
    rw [if_pos (by
      unfold autoEnumMatched autoEnumConsider
      simp [hfind, hg, List.mem_of_elem_eq_true hcont])]
    have := exclGroupsInsert_self (l := s.excludedGroups) hroom
      (by rw [hmod]; exact hg)
    rwa [hmod] at this
  unfold autoEnumStep
  dsimp only
  repeat' split
  all_goals exact h'

/-- The cascading-exclusion invariant: `g` recorded, the list clean, and no
slot announcing group `g`. -/
def exclInv (s : EnumState) (g : Nat) : Prop :=
  g ∈ s.excludedGroups ∧ exclClean s.excludedGroups ∧ noGrpSlot s g

lemma autoEnumStep_exclInv {excl : List Nat} {s : EnumState} {u : ChamUnit}
    {g : Nat} (hg : g ≠ 0) (hinv : exclInv s g) :
    exclInv (autoEnumStep excl s u) g := by
  obtain ⟨hmem, hclean, hnog⟩ := hinv
  refine ⟨autoEnumStep_excl_mem hmem, autoEnumStep_excl_clean hclean, ?_⟩
  by_cases hug : u.group = g
  · exact autoEnumStep_excluded_noGrpSlot hg hug hnog
      (Or.inr (by rw [hug]; exact exclGroupsLookup_of_mem hclean hmem))
  · exact autoEnumStep_noGrpSlot hg hug hnog

lemma autoEnumRun_exclInv {excl : List Nat} {g : Nat} (hg : g ≠ 0) :
    ∀ (l : List ChamUnit) (s : EnumState), exclInv s g →
      exclInv (autoEnumRun excl s l) g := by
  intro l
  induction l with
  | nil => exact fun s h => h
  | cons u rest ih =>
    intro s h
    unfold autoEnumRun
    split_ifs with hcap
    · exact ih _ (autoEnumStep_exclInv hg h)
    · exact h

lemma autoEnumRun_noGrpSlot {excl : List Nat} {g : Nat} (hg : g ≠ 0) :
    ∀ (l : List ChamUnit) (s : EnumState), noGrpSlot s g →
      (∀ u ∈ l, u.group ≠ g) → noGrpSlot (autoEnumRun excl s l) g := by
  intro l
  induction l with
  | nil => exact fun s h _ => h
  | cons u rest ih =>
    intro s h hl
    unfold autoEnumRun
    split_ifs with hcap
    · exact ih _ (autoEnumStep_noGrpSlot hg (hl u (List.mem_cons_self u rest)) h)
        (fun v hv => hl v (List.mem_cons_of_mem u hv))
    · exact h

lemma autoEnumRun_clean {excl : List Nat} :
    ∀ (l : List ChamUnit) (s : EnumState), exclClean s.excludedGroups →
      exclClean (autoEnumRun excl s l).excludedGroups := by
  intro l
  induction l with
  | nil => exact fun s h => h
  | cons u rest ih =>
    intro s h
    unfold autoEnumRun
    split_ifs with hcap
    · exact ih _ (autoEnumStep_excl_clean h)
    · exact h

/-- `(int16)` cast applied to the group id when building the
`CHAMELEONV2_FIND` pattern (line 1070). -/
def i16 (x : Nat) : Int :=
  if x % 65536 < 32768 then ((x % 65536 : Nat) : Int)
  else ((x % 65536 : Nat) : Int) - 65536

/-- `CHAMELEONV2_FIND` pattern passed to the external `InstanceFind`
(the always-wildcard fields `variant`/`busId`/`bootAddr` are omitted);
`idx` is the separate index argument of `InstanceFind`. -/
structure ChamFind where
  devId : Nat
  group : Int
  instanceNr : Int
  idx : Nat
  deriving Repr, DecidableEq

/-- The external table lookup `InstanceFind`, as a fixed abstract oracle:
`none` models any result other than `CHAMELEONV2_UNIT_FOUND`. -/
abbrev InstanceFind := ChamFind → Option ChamUnit

/-- The group-member loop of the manual mode (lines 1066-1101): look up
every member `n < min devCount CHAMELEON_BBIS_MAX_DEVS` with pattern
(member devId, `(int16)` group id, instance -1, member idx); returns the
group record with the looked-up members stored and a flag telling whether
any member lookup failed (the loop continues over the remaining members
after a failure). -/
def manualResolveGrp (find : InstanceFind) (g : BbisChamGrp) :
    BbisChamGrp × Bool :=
  let memberFind : Nat → Option ChamUnit := fun n =>
    find ⟨g.devId n, i16 g.grpId, -1, g.idx n⟩
  ({ g with dev := fun n =>
      if n < min g.devCount CHAMELEON_BBIS_MAX_DEVS then memberFind n
      else g.dev n },
   (List.range (min g.devCount CHAMELEON_BBIS_MAX_DEVS)).any
     (fun n => (memberFind n).isNone))

/-- Resolution of one declared slot in the manual-mode loop (lines
1060-1139), returning the new `(devId[i], dev[i])`.  A failed single lookup
flags just this slot `CHAMELEON_NO_DEV` (dev[i] untouched); a failed group
member lookup flags the whole group slot `CHAMELEON_NO_DEV`. -/
def manualResolveSlot (find : InstanceFind) (dId : Nat) (inst : Int)
    (idx : Nat) (d : DevSlot) : Nat × DevSlot :=
  if dId = CHAMELEON_NO_DEV then (dId, d)
  else if dId = CHAMELEON_BBIS_GROUP then
    -- run through group (lines 1066-1101); a member failure flags the
    -- whole slot unusable
    let r := manualResolveGrp find (slotGrp d)
    (if r.2 then CHAMELEON_NO_DEV else dId, some (Sum.inr r.1))
  else
    -- normal device, no group (lines 1103-1138)
    match find ⟨dId, 0, inst, idx⟩ with
    | some u => (dId, some (Sum.inl u))
    | none => (CHAMELEON_NO_DEV, d)

/-- The slot-population phase of `CHAMELEON_BrdInit`: restore `devCount` to
the value captured at the end of `CHAMELEON_Init` (lines 880-883), then
populate the registry by automatic enumeration over the table, or by the
manual per-slot resolution loop (which reads and writes only slot `i`'s
cells in iteration `i`).  Table discovery, the debug dump and the GIRQ
probe are outside this phase and do not touch the slot registry. -/
def brdInitPopulate (h : BbisHandle) (table : List ChamUnit)
    (find : InstanceFind) : BbisHandle :=
  let h := { h with devCount := h.devCountInit }
  if h.autoEnum then
    let s := autoEnumRun h.exclModCodes ⟨h.devCount, h.devId, h.dev, []⟩ table
    { h with devCount := s.devCount, devId := s.devId, dev := s.dev }
  else
    { h with
      devId := fun i =>
        if i < CHAMELEON_BBIS_MAX_DEVS then
          (manualResolveSlot find (h.devId i) (h.inst i) (h.idx i) (h.dev i)).1
        else h.devId i,
      dev := fun i =>
        if i < CHAMELEON_BBIS_MAX_DEVS then
          (manualResolveSlot find (h.devId i) (h.inst i) (h.idx i) (h.dev i)).2
        else h.dev i }

lemma autoEnumRun_stuck {excl : List Nat} {s : EnumState}
    (hcap : ¬ s.devCount < CHAMELEON_BBIS_MAX_DEVS) :
    ∀ l, autoEnumRun excl s l = s := by
  intro l
  cases l with
  | nil => rfl
  | cons u rest =>
    unfold autoEnumRun
    rw [if_neg hcap]

lemma autoEnumRun_append {excl : List Nat} :
    ∀ (l₁ l₂ : List ChamUnit) (s : EnumState),
      autoEnumRun excl s (l₁ ++ l₂) =
        autoEnumRun excl (autoEnumRun excl s l₁) l₂ := by
  intro l₁
  induction l₁ with
  | nil => intro l₂ s; rfl
  | cons u rest ih =>
    intro l₂ s
    rw [List.cons_append]
    show (if s.devCount < CHAMELEON_BBIS_MAX_DEVS then
        autoEnumRun excl (autoEnumStep excl s u) (rest ++ l₂) else s) = _
    by_cases hcap : s.devCount < CHAMELEON_BBIS_MAX_DEVS
    · rw [if_pos hcap]
      rw [ih l₂ _]
      congr 1
      show _ = (if s.devCount < CHAMELEON_BBIS_MAX_DEVS then
        autoEnumRun excl (autoEnumStep excl s u) rest else s)
      rw [if_pos hcap]
    · rw [if_neg hcap]
      have h1 : autoEnumRun excl s (u :: rest) = s := autoEnumRun_stuck hcap _
      rw [h1, autoEnumRun_stuck hcap l₂]

/-- `brdInitPopulate` in automatic mode, unfolded. -/
lemma brdInitPopulate_auto (h : BbisHandle) (table : List ChamUnit)
    (find : InstanceFind) (hauto : h.autoEnum = true) :
    brdInitPopulate h table find =
      { h with
        devCount := (autoEnumRun h.exclModCodes
          ⟨h.devCountInit, h.devId, h.dev, []⟩ table).devCount,
        devId := (autoEnumRun h.exclModCodes
          ⟨h.devCountInit, h.devId, h.dev, []⟩ table).devId,
        dev := (autoEnumRun h.exclModCodes
          ⟨h.devCountInit, h.devId, h.dev, []⟩ table).dev } := by
  unfold brdInitPopulate
  dsimp only
  rw [if_pos hauto]

/-- `brdInitPopulate` in manual mode, unfolded. -/
lemma brdInitPopulate_manual (h : BbisHandle) (table : List ChamUnit)
    (find : InstanceFind) (hauto : h.autoEnum = false) :
    brdInitPopulate h table find =
      { h with
        devCount := h.devCountInit,
        devId := fun i =>
          if i < CHAMELEON_BBIS_MAX_DEVS then
            (manualResolveSlot find (h.devId i) (h.inst i) (h.idx i)
              (h.dev i)).1
          else h.devId i,
        dev := fun i =>
          if i < CHAMELEON_BBIS_MAX_DEVS then
            (manualResolveSlot find (h.devId i) (h.inst i) (h.idx i)
              (h.dev i)).2
          else h.dev i } := by
  unfold brdInitPopulate
  dsimp only
  rw [if_neg (by rw [hauto]; exact Bool.false_ne_true)]

/-- C1: In automatic enumeration, when the base (first) member of a
nonzero group `g` matches the exclusion list, every subsequent unit
carrying group id `g` is also excluded from slot assignment: after
board-init over the table `pre ++ base :: post` no slot announces group
`g`, so no later member of the group occupies or joins a slot, even though
the later members' device ids need not appear in the exclusion list.  The
group id is recorded in the bounded excluded-groups side list, whence the
hypotheses that `g` fits the list's u8 entries (`g < 256`) and that the
list still has room (fewer than `CHAMELEON_BBIS_MAX_GRPS - 1` used
entries) when the base member is reached. -/
theorem autoEnum_excluded_group_cascade
    (h : BbisHandle) (find : InstanceFind)
    (pre post : List ChamUnit) (base : ChamUnit) (g : Nat)
    (hauto : h.autoEnum = true) (hinit : h.devCountInit = 0)
    (hg : g ≠ 0) (h256 : g < 256)
    (hbase : base.group = g) (hexcl : base.devId ∈ h.exclModCodes)
    (hpre : ∀ u ∈ pre, u.group ≠ g)
    (hroom : (autoEnumRun h.exclModCodes ⟨0, h.devId, h.dev, []⟩
        pre).excludedGroups.length < CHAMELEON_BBIS_MAX_GRPS - 1) :
    ∀ n < (brdInitPopulate h (pre ++ base :: post) find).devCount,
      ¬((brdInitPopulate h (pre ++ base :: post) find).devId n =
          CHAMELEON_BBIS_GROUP ∧
        (slotGrp ((brdInitPopulate h (pre ++ base :: post) find).dev n)).grpId
          = g) := by
  have key : noGrpSlot
      (autoEnumRun h.exclModCodes ⟨0, h.devId, h.dev, []⟩
        (pre ++ base :: post)) g := by
    rw [autoEnumRun_append]
    have hnog0 : noGrpSlot (⟨0, h.devId, h.dev, []⟩ : EnumState) g :=
      fun n hn => absurd hn (Nat.not_lt_zero n)
    have hnog1 : noGrpSlot
        (autoEnumRun h.exclModCodes ⟨0, h.devId, h.dev, []⟩ pre) g :=
      autoEnumRun_noGrpSlot hg pre _ hnog0 hpre
    have hclean1 : exclClean
        (autoEnumRun h.exclModCodes ⟨0, h.devId, h.dev, []⟩
          pre).excludedGroups :=
      autoEnumRun_clean pre _ (fun x hx => absurd hx (List.not_mem_nil x))
    by_cases hcap : (autoEnumRun h.exclModCodes ⟨0, h.devId, h.dev, []⟩
        pre).devCount < CHAMELEON_BBIS_MAX_DEVS
    · show noGrpSlot (autoEnumRun h.exclModCodes _ (base :: post)) g
      unfold autoEnumRun
      rw [if_pos hcap]
      have hinv : exclInv
          (autoEnumStep h.exclModCodes
            (autoEnumRun h.exclModCodes ⟨0, h.devId, h.dev, []⟩ pre) base)
          g :=
        ⟨autoEnumStep_base_mem hg h256 hbase
            (List.elem_eq_true_of_mem hexcl) hnog1 hroom,
         autoEnumStep_excl_clean hclean1,
         autoEnumStep_excluded_noGrpSlot hg hbase hnog1
            (Or.inl (List.elem_eq_true_of_mem hexcl))⟩
      exact (autoEnumRun_exclInv hg post _ hinv).2.2
    · rw [autoEnumRun_stuck hcap]
      exact hnog1
  rw [brdInitPopulate_auto h _ find hauto, hinit]
  intro n hn hp
  exact key n hn hp

/-- Witness for C1: the exclusion list holds the DISP device id 0x2C, the
base member of group 1; the SDRAM member (0x2B, group 1, not in the list)
following it is cascade-excluded, so the only slot is the GPIO unit. -/
theorem autoEnum_excluded_group_cascade_witness :
    let hW : BbisHandle :=
      ⟨0, 0, (fun _ => CHAMELEON_NO_DEV), (fun _ => -1), (fun _ => 0),
       (fun _ => none), 0, 0, true, [0x23, 0x2C], false, 0⟩
    let pre : List ChamUnit := [⟨0x22, 0, 0, 2, 0, 0, 0⟩]
    let base : ChamUnit := ⟨0x2C, 1, 0, 3, 0, 0, 0⟩
    let post : List ChamUnit := [⟨0x2B, 1, 0, 4, 0, 0, 0⟩]
    let findW : InstanceFind := fun _ => none
    let hF := brdInitPopulate hW (pre ++ base :: post) findW
    ¬(hF.devId 0 = CHAMELEON_BBIS_GROUP ∧ (slotGrp (hF.dev 0)).grpId = 1) := by
  intro hW pre base post findW hF
  exact autoEnum_excluded_group_cascade hW findW pre post base 1
    rfl rfl (by decide) (by decide) rfl (by decide) (by decide) (by decide)
    0 (by decide)

/-! ### Re-init determinism (C4)

A step of the enumeration loop reads only the counter, the
excluded-groups list, and the array cells below the counter, and writes
only cells below the new counter; therefore a re-run started from the
restored counter reproduces the first run. -/

/-- Prefix equivalence of enumeration states. -/
def EnumEquiv (s s' : EnumState) : Prop :=
  s.devCount = s'.devCount ∧ s.excludedGroups = s'.excludedGroups ∧
  ∀ n < s.devCount, s.devId n = s'.devId n ∧ s.dev n = s'.dev n

lemma find?_congr_list {α : Type} (p q : α → Bool) :
    ∀ l : List α, (∀ x ∈ l, p x = q x) → l.find? p = l.find? q := by
  intro l
  induction l with
  | nil => intro _; rfl
  | cons x xs ih =>
    intro hpq
    rw [List.find?_cons, List.find?_cons,
      hpq x (List.mem_cons_self x xs), ih fun y hy =>
        hpq y (List.mem_cons_of_mem x hy)]

lemma findGrpSlot_congr {s s' : EnumState} (he : EnumEquiv s s') (g : Nat) :
    findGrpSlot s g = findGrpSlot s' g := by
  unfold findGrpSlot
  rw [he.1]
  refine find?_congr_list _ _ _ fun n hn => ?_
  rw [List.mem_range, ← he.1] at hn
  rw [(he.2.2 n hn).1, (he.2.2 n hn).2]

lemma autoEnumStep_congr {excl : List Nat} {s s' : EnumState} {u : ChamUnit}
    (he : EnumEquiv s s') :
    EnumEquiv (autoEnumStep excl s u) (autoEnumStep excl s' u) := by
  obtain ⟨hc, hx, hpre⟩ := he
  have hfind : findGrpSlot s u.group = findGrpSlot s' u.group :=
    findGrpSlot_congr ⟨hc, hx, hpre⟩ u.group
  have hcons : autoEnumConsider s u = autoEnumConsider s' u := by
    unfold autoEnumConsider; rw [hfind]
  have hmat : autoEnumMatched excl s u = autoEnumMatched excl s' u := by
    unfold autoEnumMatched; rw [hcons]
  have hnew : autoEnumNewExcl excl s u = autoEnumNewExcl excl s' u := by
    unfold autoEnumNewExcl; rw [hmat, hx]
  have hexc : autoEnumExclude excl s u = autoEnumExclude excl s' u := by
    unfold autoEnumExclude; rw [hmat, hcons, hx]
  unfold autoEnumStep
  dsimp only
  rw [hexc, hnew, hfind, hc]
  by_cases hex : autoEnumExclude excl s' u = true
  · rw [if_pos hex, if_pos hex]
    exact ⟨rfl, rfl, fun n hn => hpre n (by rw [hc]; exact hn)⟩
  · rw [if_neg hex, if_neg hex]
    by_cases hgrp0 : (u.group == 0) = true
    · rw [if_pos hgrp0, if_pos hgrp0]
      refine ⟨rfl, rfl, fun n hn => ?_⟩
      have hn' : n < s'.devCount + 1 := hn
      by_cases hnc : n = s'.devCount
      · subst hnc
        exact ⟨by simp [aset], by simp [aset]⟩
      · have hns : n < s.devCount := by rw [hc]; omega
        exact ⟨by simp only [aset, if_neg hnc]; exact (hpre n hns).1,
               by simp only [aset, if_neg hnc]; exact (hpre n hns).2⟩
    · rw [if_neg hgrp0, if_neg hgrp0]
      rcases hfind' : findGrpSlot s' u.group with _ | n₀
      · dsimp only
        by_cases hcap : s'.devCount < CHAMELEON_BBIS_MAX_DEVS
        · rw [if_pos hcap, if_pos hcap]
          refine ⟨rfl, rfl, fun n hn => ?_⟩
          have hn' : n < s'.devCount + 1 := hn
          by_cases hnc : n = s'.devCount
          · subst hnc
            exact ⟨by simp [aset], by simp [aset]⟩
          · have hns : n < s.devCount := by rw [hc]; omega
            exact ⟨by simp only [aset, if_neg hnc]; exact (hpre n hns).1,
                   by simp only [aset, if_neg hnc]; exact (hpre n hns).2⟩
        · rw [if_neg hcap, if_neg hcap]
          exact ⟨rfl, rfl, fun n hn => hpre n (by rw [hc]; exact hn)⟩
      · dsimp only
        obtain ⟨hn₀lt, -, -⟩ := findGrpSlot_some hfind'
        have hn₀s : n₀ < s.devCount := by rw [hc]; exact hn₀lt
        have hdev : s.dev n₀ = s'.dev n₀ := (hpre n₀ hn₀s).2
        rw [hdev]
        by_cases hcap :
            (slotGrp (s'.dev n₀)).devCount < CHAMELEON_BBIS_MAX_DEVS
        · rw [if_pos hcap, if_pos hcap]
          refine ⟨rfl, rfl, fun n hn => ?_⟩
          have hns : n < s.devCount := by rw [hc]; exact hn
          by_cases hnn : n = n₀
          · subst hnn
            exact ⟨(hpre n hns).1, by simp [aset]⟩
          · exact ⟨(hpre n hns).1,
              by simp only [aset, if_neg hnn]; exact (hpre n hns).2⟩
        · rw [if_neg hcap, if_neg hcap]
          exact ⟨rfl, rfl, fun n hn => hpre n (by rw [hc]; exact hn)⟩

lemma autoEnumRun_congr {excl : List Nat} :
    ∀ (l : List ChamUnit) (s s' : EnumState), EnumEquiv s s' →
      EnumEquiv (autoEnumRun excl s l) (autoEnumRun excl s' l) := by
  intro l
  induction l with
  | nil => exact fun s s' he => he
  | cons u rest ih =>
    intro s s' he
    unfold autoEnumRun
    rw [he.1]
    by_cases hcap : s'.devCount < CHAMELEON_BBIS_MAX_DEVS
    · rw [if_pos hcap, if_pos hcap]
      exact ih _ _ (autoEnumStep_congr he)
    · rw [if_neg hcap, if_neg hcap]
      exact he

/-- One step writes only cells below the new counter and never shrinks
the counter. -/
lemma autoEnumStep_frame {excl : List Nat} {s : EnumState} {u : ChamUnit} :
    s.devCount ≤ (autoEnumStep excl s u).devCount ∧
    ∀ n, (autoEnumStep excl s u).devCount ≤ n →
      (autoEnumStep excl s u).devId n = s.devId n ∧
      (autoEnumStep excl s u).dev n = s.dev n := by
  unfold autoEnumStep
  dsimp only
  by_cases hex : autoEnumExclude excl s u = true
  · rw [if_pos hex]
    exact ⟨le_refl _, fun n _ => ⟨rfl, rfl⟩⟩
  · rw [if_neg hex]
    by_cases hgrp0 : (u.group == 0) = true
    · rw [if_pos hgrp0]
      refine ⟨Nat.le_succ _, fun n hn => ?_⟩
      have hn' : s.devCount + 1 ≤ n := hn
      have : n ≠ s.devCount := by omega
      simp [aset, this]
    · rw [if_neg hgrp0]
      rcases hfind : findGrpSlot s u.group with _ | n₀
      · dsimp only
        by_cases hcap : s.devCount < CHAMELEON_BBIS_MAX_DEVS
        · rw [if_pos hcap]
          refine ⟨Nat.le_succ _, fun n hn => ?_⟩
          have hn' : s.devCount + 1 ≤ n := hn
          have : n ≠ s.devCount := by omega
          simp [aset, this]
        · rw [if_neg hcap]
          exact ⟨le_refl _, fun n _ => ⟨rfl, rfl⟩⟩
      · dsimp only
        obtain ⟨hn₀lt, -, -⟩ := findGrpSlot_some hfind
        by_cases hcap :
            (slotGrp (s.dev n₀)).devCount < CHAMELEON_BBIS_MAX_DEVS
        · rw [if_pos hcap]
          refine ⟨le_refl _, fun n hn => ?_⟩
          have hn' : s.devCount ≤ n := hn
          have : n ≠ n₀ := by omega
          simp [aset, this]
        · rw [if_neg hcap]
          exact ⟨le_refl _, fun n _ => ⟨rfl, rfl⟩⟩

/-- A whole run writes only cells below the final counter. -/
lemma autoEnumRun_frame {excl : List Nat} :
    ∀ (l : List ChamUnit) (s : EnumState),
      s.devCount ≤ (autoEnumRun excl s l).devCount ∧
      ∀ n, (autoEnumRun excl s l).devCount ≤ n →
        (autoEnumRun excl s l).devId n = s.devId n ∧
        (autoEnumRun excl s l).dev n = s.dev n := by
  intro l
  induction l with
  | nil => exact fun s => ⟨le_refl _, fun n _ => ⟨rfl, rfl⟩⟩
  | cons u rest ih =>
    intro s
    unfold autoEnumRun
    by_cases hcap : s.devCount < CHAMELEON_BBIS_MAX_DEVS
    · rw [if_pos hcap]
      obtain ⟨hle1, hfr1⟩ := @autoEnumStep_frame excl s u
      obtain ⟨hle2, hfr2⟩ := ih (autoEnumStep excl s u)
      refine ⟨le_trans hle1 hle2, fun n hn => ?_⟩
      obtain ⟨ha, hb⟩ := hfr2 n hn
      obtain ⟨hc, hd⟩ := hfr1 n (le_trans hle2 hn)
      exact ⟨ha.trans hc, hb.trans hd⟩
    · rw [if_neg hcap]
      exact ⟨le_refl _, fun n _ => ⟨rfl, rfl⟩⟩

/-- The group resolution is idempotent: the resolved record carries the
same declaration arrays, so a second pass performs the same lookups. -/
lemma manualResolveGrp_idem (find : InstanceFind) (g : BbisChamGrp) :
    manualResolveGrp find (manualResolveGrp find g).1 =
      manualResolveGrp find g := by
  unfold manualResolveGrp
  dsimp only
  refine congrArg₂ Prod.mk ?_ rfl
  refine BbisChamGrp.ext rfl rfl rfl ?_ rfl
  funext n
  show (if n < min g.devCount CHAMELEON_BBIS_MAX_DEVS then
          find ⟨g.devId n, i16 g.grpId, -1, g.idx n⟩
        else if n < min g.devCount CHAMELEON_BBIS_MAX_DEVS then
          find ⟨g.devId n, i16 g.grpId, -1, g.idx n⟩
        else g.dev n) =
       (if n < min g.devCount CHAMELEON_BBIS_MAX_DEVS then
          find ⟨g.devId n, i16 g.grpId, -1, g.idx n⟩
        else g.dev n)
  by_cases hn : n < min g.devCount CHAMELEON_BBIS_MAX_DEVS
  · rw [if_pos hn, if_pos hn]
  · rw [if_neg hn, if_neg hn]

/-- Re-resolving an already resolved slot (same `find` oracle, i.e. same
table) reproduces it exactly. -/
lemma manualResolveSlot_idem (find : InstanceFind) (dId : Nat) (inst : Int)
    (idx : Nat) (d : DevSlot) :
    manualResolveSlot find (manualResolveSlot find dId inst idx d).1 inst idx
      (manualResolveSlot find dId inst idx d).2 =
    manualResolveSlot find dId inst idx d := by
  by_cases h1 : dId = CHAMELEON_NO_DEV
  · have hfst : manualResolveSlot find dId inst idx d = (dId, d) := by
      unfold manualResolveSlot
      rw [if_pos h1]
    rw [hfst]
    unfold manualResolveSlot
    rw [if_pos h1]
  · by_cases h2 : dId = CHAMELEON_BBIS_GROUP
    · have hfst : manualResolveSlot find dId inst idx d =
          (if (manualResolveGrp find (slotGrp d)).2 then CHAMELEON_NO_DEV
           else dId,
           some (Sum.inr (manualResolveGrp find (slotGrp d)).1)) := by
        unfold manualResolveSlot
        rw [if_neg h1, if_pos h2]
      rw [hfst]
      dsimp only
      by_cases hr : (manualResolveGrp find (slotGrp d)).2 = true
      · rw [if_pos hr]
        unfold manualResolveSlot
        rw [if_pos rfl]
      · rw [if_neg hr]
        unfold manualResolveSlot
        rw [if_neg h1, if_pos h2]
        have hsg : slotGrp (some (Sum.inr (manualResolveGrp find
            (slotGrp d)).1)) = (manualResolveGrp find (slotGrp d)).1 := rfl
        rw [hsg, manualResolveGrp_idem]
        dsimp only
        rw [if_neg hr]
    · have hfst : ∀ r, find ⟨dId, 0, inst, idx⟩ = r →
          manualResolveSlot find dId inst idx d =
            (match r with
             | some u => (dId, some (Sum.inl u))
             | none => (CHAMELEON_NO_DEV, d)) := by
        intro r hr
        unfold manualResolveSlot
        rw [if_neg h1, if_neg h2, hr]
      rcases hfd : find ⟨dId, 0, inst, idx⟩ with _ | u
      · rw [hfst none hfd]
        dsimp only
        unfold manualResolveSlot
        rw [if_pos rfl]
      · rw [hfst (some u) hfd]
        dsimp only
        unfold manualResolveSlot
        rw [if_neg h1, if_neg h2, hfd]

/-- Manual-mode re-init reproduces the first init exactly. -/
lemma brdInit_manual_idem (h : BbisHandle) (t : List ChamUnit)
    (find : InstanceFind) (hauto : h.autoEnum = false) :
    brdInitPopulate (brdInitPopulate h t find) t find =
      brdInitPopulate h t find := by
  have key := brdInitPopulate_manual h t find hauto
  have hauto2 : (brdInitPopulate h t find).autoEnum = false := by
    rw [key]
    exact hauto
  rw [brdInitPopulate_manual _ t find hauto2, key]
  refine BbisHandle.ext rfl rfl ?_ rfl rfl ?_ rfl rfl rfl rfl rfl rfl
  · funext i
    dsimp only
    by_cases hi : i < CHAMELEON_BBIS_MAX_DEVS
    · simp only [if_pos hi]
      exact congrArg Prod.fst
        (manualResolveSlot_idem find (h.devId i) (h.inst i) (h.idx i) (h.dev i))
    · simp only [if_neg hi]
  · funext i
    dsimp only
    by_cases hi : i < CHAMELEON_BBIS_MAX_DEVS
    · simp only [if_pos hi]
      exact congrArg Prod.snd
        (manualResolveSlot_idem find (h.devId i) (h.inst i) (h.idx i) (h.dev i))
    · simp only [if_neg hi]

/-- Automatic-mode re-init reproduces the first init exactly (devCount is
restored to `devCountInit` = 0 before the second run, so the run rebuilds
the same prefix and leaves everything beyond it as the first run left
it). -/
lemma brdInit_auto_idem (h : BbisHandle) (t : List ChamUnit)
    (find : InstanceFind) (hauto : h.autoEnum = true)
    (hinit : h.devCountInit = 0) :
    brdInitPopulate (brdInitPopulate h t find) t find =
      brdInitPopulate h t find := by
  have key := brdInitPopulate_auto h t find hauto
  have hauto2 : (brdInitPopulate h t find).autoEnum = true := by
    rw [key]; exact hauto
  rw [brdInitPopulate_auto _ t find hauto2, key]
  dsimp only
  rw [hinit]
  have hequiv : EnumEquiv
      (autoEnumRun h.exclModCodes
        ⟨0, (autoEnumRun h.exclModCodes ⟨0, h.devId, h.dev, []⟩ t).devId,
            (autoEnumRun h.exclModCodes ⟨0, h.devId, h.dev, []⟩ t).dev, []⟩ t)
      (autoEnumRun h.exclModCodes ⟨0, h.devId, h.dev, []⟩ t) :=
    autoEnumRun_congr t _ _
      ⟨rfl, rfl, fun n hn => absurd hn (Nat.not_lt_zero n)⟩
  obtain ⟨hfr1, hfr2⟩ := @autoEnumRun_frame h.exclModCodes t
    (⟨0, (autoEnumRun h.exclModCodes ⟨0, h.devId, h.dev, []⟩ t).devId,
        (autoEnumRun h.exclModCodes ⟨0, h.devId, h.dev, []⟩ t).dev, []⟩)
  refine BbisHandle.ext rfl rfl ?_ rfl rfl ?_ ?_ rfl rfl rfl rfl rfl
  · funext n
    by_cases hn : n < (autoEnumRun h.exclModCodes
        ⟨0, (autoEnumRun h.exclModCodes ⟨0, h.devId, h.dev, []⟩ t).devId,
            (autoEnumRun h.exclModCodes ⟨0, h.devId, h.dev, []⟩ t).dev, []⟩
        t).devCount
    · exact (hequiv.2.2 n hn).1
    · exact (hfr2 n (Nat.le_of_not_lt hn)).1
  · funext n
    by_cases hn : n < (autoEnumRun h.exclModCodes
        ⟨0, (autoEnumRun h.exclModCodes ⟨0, h.devId, h.dev, []⟩ t).devId,
            (autoEnumRun h.exclModCodes ⟨0, h.devId, h.dev, []⟩ t).dev, []⟩
        t).devCount
    · exact (hequiv.2.2 n hn).2
    · exact (hfr2 n (Nat.le_of_not_lt hn)).2
  · exact hequiv.1

/-- C4: Re-running board-init on the same handle (same table, same lookup
oracle, without reconfiguring) reproduces the identical slot-to-module
mapping in both enumeration modes — the whole handle, slot arrays
included, is reproduced exactly, so no slots are appended or shifted — and
the `devCountInit` value captured at configuration time survives every
board-init (`devCount` is restored from it at line 883 before
repopulating). -/
theorem brdInit_reinit_idempotent :
    (∀ (h : BbisHandle) (t : List ChamUnit) (find : InstanceFind),
      h.autoEnum = true → h.devCountInit = 0 →
      brdInitPopulate (brdInitPopulate h t find) t find =
        brdInitPopulate h t find) ∧
    (∀ (h : BbisHandle) (t : List ChamUnit) (find : InstanceFind),
      h.autoEnum = false →
      brdInitPopulate (brdInitPopulate h t find) t find =
        brdInitPopulate h t find) ∧
    (∀ (h : BbisHandle) (t : List ChamUnit) (find : InstanceFind),
      (brdInitPopulate h t find).devCountInit = h.devCountInit) := by
  refine ⟨brdInit_auto_idem, brdInit_manual_idem, fun h t find => ?_⟩
  by_cases hauto : h.autoEnum = true
  · rw [brdInitPopulate_auto h t find hauto]
  · rw [brdInitPopulate_manual h t find (Bool.not_eq_true _ ▸ hauto)]

/-- Witness for C4 at a concrete auto-mode handle (2-unit table, one
excluded) and a concrete manual-mode handle with a 2-slot declaration. -/
theorem brdInit_reinit_idempotent_witness :
    let hA : BbisHandle :=
      ⟨0, 0, (fun _ => CHAMELEON_NO_DEV), (fun _ => -1), (fun _ => 0),
       (fun _ => none), 0, 0, true, [0x19], false, 0⟩
    let tA : List ChamUnit := [⟨0x19, 0, 0, 1, 0, 0, 0⟩, ⟨0x22, 0, 0, 2, 0, 0, 0⟩]
    let hM : BbisHandle :=
      ⟨0, 0, (fun n => if n = 0 then 0x22 else CHAMELEON_NO_DEV),
       (fun _ => 0), (fun _ => 0), (fun _ => none), 1, 1, false, [], false, 0⟩
    let findW : InstanceFind := fun r =>
      if r.devId = 0x22 then some ⟨0x22, 0, 0, 2, 0x9000, 0x100, 1⟩ else none
    brdInitPopulate (brdInitPopulate hA tA findW) tA findW =
      brdInitPopulate hA tA findW ∧
    brdInitPopulate (brdInitPopulate hM tA findW) tA findW =
      brdInitPopulate hM tA findW := by
  intro hA tA hM findW
  exact ⟨brdInit_reinit_idempotent.1 hA tA findW rfl rfl,
    brdInit_reinit_idempotent.2.1 hM tA findW rfl⟩

/-- C10: The board-info query for the number of slots returns the fixed
slot-array capacity `CHAMELEON_BBIS_MAX_DEVS` = 256; the query takes no
board handle (also not in the source), so the answer is independent of any
configuration or occupancy. -/
theorem brdInfo_num_slots :
    CHAMELEON_BrdInfo BBIS_BRDINFO_NUM_SLOTS =
      .ok (.numSlots CHAMELEON_BBIS_MAX_DEVS) ∧
    CHAMELEON_BBIS_MAX_DEVS = 256 := by
  constructor
  · rfl
  · rfl

/-- The failure flag of the group resolution, unfolded. -/
lemma manualResolveGrp_failed (find : InstanceFind) (g : BbisChamGrp) :
    (manualResolveGrp find g).2 =
      (List.range (min g.devCount CHAMELEON_BBIS_MAX_DEVS)).any
        (fun n => (find ⟨g.devId n, i16 g.grpId, -1, g.idx n⟩).isNone) := rfl

/-- C6: Manual-mode lookup failures are isolated and non-fatal (lines
1060-1139).  (a) When the single-device lookup for a declared slot `i`
fails, board-init flags just that slot `CHAMELEON_NO_DEV` — reported as
unoccupied thereafter — and leaves its `dev` cell untouched.  (b) When the
lookup of any member `n` of a declared group in slot `i` fails, the entire
group's slot is flagged `CHAMELEON_NO_DEV`.  (c) Any other declared slot
`j` whose own lookup succeeds is resolved normally regardless of failures
elsewhere, and board-init itself does not fail: the populate phase is a
total function, matching the C loop, whose lookup-failure paths only flag
the slot and continue (its only error exits are memory-allocation
failures, which are outside the lookup-failure claim). -/
theorem manual_lookup_failure_isolated :
    (∀ (h : BbisHandle) (t : List ChamUnit) (find : InstanceFind) (i : Nat),
      h.autoEnum = false → i < CHAMELEON_BBIS_MAX_DEVS →
      h.devId i ≠ CHAMELEON_NO_DEV → h.devId i ≠ CHAMELEON_BBIS_GROUP →
      find ⟨h.devId i, 0, h.inst i, h.idx i⟩ = none →
      (brdInitPopulate h t find).devId i = CHAMELEON_NO_DEV ∧
        (brdInitPopulate h t find).dev i = h.dev i) ∧
    (∀ (h : BbisHandle) (t : List ChamUnit) (find : InstanceFind) (i n : Nat),
      h.autoEnum = false → i < CHAMELEON_BBIS_MAX_DEVS →
      h.devId i = CHAMELEON_BBIS_GROUP →
      n < min (slotGrp (h.dev i)).devCount CHAMELEON_BBIS_MAX_DEVS →
      find ⟨(slotGrp (h.dev i)).devId n, i16 (slotGrp (h.dev i)).grpId, -1,
        (slotGrp (h.dev i)).idx n⟩ = none →
      (brdInitPopulate h t find).devId i = CHAMELEON_NO_DEV) ∧
    (∀ (h : BbisHandle) (t : List ChamUnit) (find : InstanceFind) (j : Nat)
        (u : ChamUnit),
      h.autoEnum = false → j < CHAMELEON_BBIS_MAX_DEVS →
      h.devId j ≠ CHAMELEON_NO_DEV → h.devId j ≠ CHAMELEON_BBIS_GROUP →
      find ⟨h.devId j, 0, h.inst j, h.idx j⟩ = some u →
      (brdInitPopulate h t find).devId j = h.devId j ∧
        (brdInitPopulate h t find).dev j = some (Sum.inl u)) := by
  refine ⟨?_, ?_, ?_⟩
  · intro h t find i hauto hi hnd hng hfind
    rw [brdInitPopulate_manual h t find hauto]
    dsimp only
    rw [if_pos hi, if_pos hi]
    unfold manualResolveSlot
    rw [if_neg hnd, if_neg hng, hfind]
    exact ⟨rfl, rfl⟩
  · intro h t find i n hauto hi hg hn hfind
    rw [brdInitPopulate_manual h t find hauto]
    dsimp only
    rw [if_pos hi]
    unfold manualResolveSlot
    rw [if_neg (by rw [hg]; decide), if_pos hg]
    dsimp only
    have hflag : (manualResolveGrp find (slotGrp (h.dev i))).2 = true := by
      rw [manualResolveGrp_failed]
      exact List.any_eq_true.2 ⟨n, List.mem_range.2 hn, by rw [hfind]; rfl⟩
    rw [if_pos hflag]
  · intro h t find j u hauto hj hnd hng hfind
    rw [brdInitPopulate_manual h t find hauto]
    dsimp only
    rw [if_pos hj, if_pos hj]
    unfold manualResolveSlot
    rw [if_neg hnd, if_neg hng, hfind]
    exact ⟨rfl, rfl⟩

/-- Witness for C6: a concrete manual-mode handle with a failing single
device in slot 0, a group with a failing member in slot 1, and a
succeeding single device in slot 2. -/
theorem manual_lookup_failure_isolated_witness :
    let u19 : ChamUnit := ⟨0x19, 0, 0, 1, 0x8000, 0x100, 1⟩
    let gW : BbisChamGrp := ⟨7, (fun _ => 0x35), (fun _ => 0),
      (fun _ => none), 1⟩
    let hW : BbisHandle :=
      ⟨0, 0,
       (fun i => if i = 0 then 0x22 else if i = 1 then CHAMELEON_BBIS_GROUP
                 else if i = 2 then 0x19 else CHAMELEON_NO_DEV),
       (fun _ => 0), (fun _ => 0),
       (fun i => if i = 1 then some (Sum.inr gW) else none),
       3, 3, false, [], false, 0⟩
    let findW : InstanceFind := fun r =>
      if r.devId = 0x19 then some u19 else none
    ((brdInitPopulate hW [] findW).devId 0 = CHAMELEON_NO_DEV ∧
      (brdInitPopulate hW [] findW).dev 0 = hW.dev 0) ∧
    (brdInitPopulate hW [] findW).devId 1 = CHAMELEON_NO_DEV ∧
    ((brdInitPopulate hW [] findW).devId 2 = hW.devId 2 ∧
      (brdInitPopulate hW [] findW).dev 2 = some (Sum.inl u19)) := by
  intro u19 gW hW findW
  refine ⟨?_, ?_, ?_⟩
  · exact manual_lookup_failure_isolated.1 hW [] findW 0 rfl (by decide)
      (by decide) (by decide) rfl
  · exact manual_lookup_failure_isolated.2.1 hW [] findW 1 0 rfl (by decide)
      rfl (by decide) rfl
  · exact manual_lookup_failure_isolated.2.2 hW [] findW 2 u19 rfl (by decide)
      (by decide) (by decide) rfl

end BbCham
